import Mathlib

/-!
Verification of the gmail-smtp-mcp composition-and-delivery pipeline.

The development shallowly embeds the Python sources:
* `scripts/spool_utils.py` — durable file-based spool (queue_payload,
  iter_pending, load_entry, move_to_sent, move_to_failed),
* `scripts/run_spool.py` / `scripts/deliver_spool.py` — drain loops,
* `server.py` — template rendering (`_safe_template`), slug validation,
  template/signature creation, calendar-invite generation
  (`_build_calendar_invite`), message composition (`_build_message`) and
  the send tool (`gmail_send_email_with_attachments`).

Python strings are Lean `String`s, but every operation on them
(lower-casing, stripping, lexicographic comparison, sorting) is
implemented here over the underlying character lists so that all
definitions compute by kernel reduction.  JSON values are modelled by the
`Json` inductive below; `json.dumps` followed by `json.loads` is the
identity on such values, so the on-disk spool files store `Json` directly.
Wall-clock readings (`time.time()`, `datetime.now()`), `uuid4().hex` and
generated content-ids are inputs of the embedded functions, since the code
obtains them from the environment.
-/

/-- ASCII lower-casing of one character, as Python `str.lower` acts on the
ASCII range used by the code. -/
def charLower (c : Char) : Char :=
  if 'A' ≤ c ∧ c ≤ 'Z' then Char.ofNat (c.toNat + 32) else c

/-- Python `str.lower` (ASCII fragment). -/
def pyLower (s : String) : String := String.mk (s.data.map charLower)

/-- The whitespace characters stripped by Python `str.strip()` (ASCII part). -/
def isPySpace (c : Char) : Bool :=
  c = ' ' ∨ c = '\t' ∨ c = '\n' ∨ c = '\x0d' ∨ c = '\x0b' ∨ c = '\x0c'

/-- Python `str.strip()`. -/
def pyStrip (s : String) : String :=
  String.mk (((s.data.dropWhile isPySpace).reverse.dropWhile isPySpace).reverse)

/-- Python `str.rstrip()`. -/
def pyRstrip (s : String) : String :=
  String.mk ((s.data.reverse.dropWhile isPySpace).reverse)

/-- Lexicographic comparison of character lists by code point, as Python
compares strings. -/
def lexLe : List Char → List Char → Bool
  | [], _ => true
  | _ :: _, [] => false
  | a :: as, b :: bs =>
    if a.toNat < b.toNat then true
    else if b.toNat < a.toNat then false
    else lexLe as bs

/-- Python string `<=` by code points. -/
def strLe (a b : String) : Bool := lexLe a.data b.data

/-- Insert into a lexicographically sorted list (helper for `sortStrings`). -/
def insertSorted (x : String) : List String → List String
  | [] => [x]
  | y :: ys => if strLe x y then x :: y :: ys else y :: insertSorted x ys

/-- Python `sorted` on a list of strings (insertion sort; the order is the
unique sorted order because names are distinct). -/
def sortStrings : List String → List String
  | [] => []
  | x :: xs => insertSorted x (sortStrings xs)

/-- `name.endswith(".json")`, via character lists. -/
def strEndsWith (suffix s : String) : Bool :=
  List.isSuffixOf suffix.data s.data

/-- JSON values (`json.dumps`/`json.loads` round-trip is the identity on
these, so spool files are modelled as storing them directly).  Numbers are
integral, which covers every value the code writes. -/
inductive Json where
  | null : Json
  | bool : Bool → Json
  | num : Int → Json
  | str : String → Json
  | arr : List Json → Json
  | obj : List (String × Json) → Json

/-- One spool record, the JSON object of `scripts/spool_utils.py`: the
enqueue-time fields plus the optional terminal fields. -/
structure SpoolEntry where
  schema_version : Nat
  queued_at : String
  metadata : Json
  payload : Json
  sent_at : Option String := none
  result : Option Json := none
  failed_at : Option String := none
  error : Option String := none
  traceback : Option String := none

/-- A spool directory: file name ↦ stored record, in creation order. -/
abbrev SpoolDir := List (String × SpoolEntry)

/-- Read the file `name` from a directory (first match). -/
def dirGet : SpoolDir → String → Option SpoolEntry
  | [], _ => none
  | (n, e) :: rest, name => if n = name then some e else dirGet rest name

/-- `path.write_text(...)`: replaces the contents when the file exists,
creates it otherwise (directory names are unique, so replacing the first
occurrence is the filesystem's behavior). -/
def fsWrite : SpoolDir → String → SpoolEntry → SpoolDir
  | [], name, e => [(name, e)]
  | (n, v) :: rest, name, e =>
    if n = name then (name, e) :: rest else (n, v) :: fsWrite rest name e

/-- The three spool directories `spool/pending`, `spool/sent`,
`spool/failed`. -/
structure SpoolState where
  pending : SpoolDir
  sent : SpoolDir
  failed : SpoolDir

/-- The fresh entry written by `queue_payload`: `schema_version` 1, the
enqueue timestamp, `metadata or {}`, and the payload. -/
def mkPendingEntry (nowIso : String) (metadata : Option Json) (payload : Json) :
    SpoolEntry :=
  { schema_version := 1
    queued_at := nowIso
    metadata := metadata.getD (Json.obj [])
    payload := payload }

/-- The spool file name `f"{int(time.time())}-{uuid.uuid4().hex}.json"`. -/
def spoolFileName (timeSecs : Nat) (uuidHex : String) : String :=
  Nat.repr timeSecs ++ "-" ++ uuidHex ++ ".json"

/-- `spool_utils.queue_payload`: write the entry to the pending directory
under the time/uuid name and return the new state with the name. -/
def queue_payload (s : SpoolState) (payload : Json) (metadata : Option Json)
    (nowIso : String) (timeSecs : Nat) (uuidHex : String) : SpoolState × String :=
  let file_name := spoolFileName timeSecs uuidHex
  let entry := mkPendingEntry nowIso metadata payload
  ({ s with pending := fsWrite s.pending file_name entry }, file_name)

/-- `spool_utils.load_entry` on a pending path: parse the stored record. -/
def load_entry (s : SpoolState) (name : String) : Option SpoolEntry :=
  dirGet s.pending name

/-- The record written by `move_to_sent`: the pending record plus
`sent_at` and `result`. -/
def sentEntry (e : SpoolEntry) (nowIso : String) (result : Json) : SpoolEntry :=
  { e with sent_at := some nowIso, result := some result }

/-- The record written by `move_to_failed`: the pending record plus
`failed_at`, `error`, and — only when the traceback text is truthy —
`traceback`. -/
def failedEntry (e : SpoolEntry) (nowIso : String) (error : String)
    (traceback_text : Option String) : SpoolEntry :=
  { e with
    failed_at := some nowIso
    error := some error
    traceback :=
      match traceback_text with
      | some t => if t = "" then e.traceback else some t
      | none => e.traceback }

/-- `spool_utils.move_to_sent`: read the pending record, write the full
record with `sent_at`/`result` into `sent/`, then unlink the pending copy.
`none` models the exception when the pending file is missing. -/
def move_to_sent (s : SpoolState) (name : String) (result : Json)
    (nowIso : String) : Option SpoolState :=
  match dirGet s.pending name with
  | none => none
  | some e =>
    some { s with
      sent := fsWrite s.sent name (sentEntry e nowIso result)
      pending := s.pending.filter (fun p => decide (p.1 ≠ name)) }

/-- `spool_utils.move_to_failed`, analogously. -/
def move_to_failed (s : SpoolState) (name : String) (error : String)
    (traceback_text : Option String) (nowIso : String) : Option SpoolState :=
  match dirGet s.pending name with
  | none => none
  | some e =>
    some { s with
      failed := fsWrite s.failed name (failedEntry e nowIso error traceback_text)
      pending := s.pending.filter (fun p => decide (p.1 ≠ name)) }

/-- Primitive file-system steps, for stating in which order a transition
touches the disk. -/
inductive FsOp where
  | read : String → FsOp
  | write : String → SpoolEntry → FsOp
  | unlink : String → FsOp

/-- Path of a pending entry file. -/
def pendingPath (name : String) : String := "spool/pending/" ++ name

/-- Path of a sent entry file. -/
def sentPath (name : String) : String := "spool/sent/" ++ name

/-- Path of a failed entry file. -/
def failedPath (name : String) : String := "spool/failed/" ++ name

/-- The exact sequence of file operations performed by
`move_to_sent(path, result)` on a pending entry `e`: read the pending
record, write the full terminal record to `sent/`, then unlink the
pending copy. -/
def move_to_sent_trace (name : String) (e : SpoolEntry) (result : Json)
    (nowIso : String) : List FsOp :=
  [FsOp.read (pendingPath name),
   FsOp.write (sentPath name) (sentEntry e nowIso result),
   FsOp.unlink (pendingPath name)]

/-- The exact sequence of file operations performed by
`move_to_failed(path, error, traceback_text)` on a pending entry `e`. -/
def move_to_failed_trace (name : String) (e : SpoolEntry) (error : String)
    (traceback_text : Option String) (nowIso : String) : List FsOp :=
  [FsOp.read (pendingPath name),
   FsOp.write (failedPath name) (failedEntry e nowIso error traceback_text),
   FsOp.unlink (pendingPath name)]

/-- C1.  Both terminal transitions write the full record — the original
fields plus the resolution timestamp and outcome — to the terminal
location strictly before unlinking the pending copy: in every prefix of
the operation trace (every crash point), if the pending file has been
unlinked then the terminal file has already been written.  Hence the
transition is enqueue-terminal-then-delete, never delete-then-write. -/
theorem c1_transition_writes_terminal_before_unlink
    (name : String) (e : SpoolEntry) (result : Json) (error : String)
    (tb : Option String) (nowIso : String) :
    (∃ i j : Nat, i < j ∧
      (move_to_sent_trace name e result nowIso).get? i =
        some (FsOp.write (sentPath name) (sentEntry e nowIso result)) ∧
      (move_to_sent_trace name e result nowIso).get? j =
        some (FsOp.unlink (pendingPath name))) ∧
    (∀ k, FsOp.unlink (pendingPath name) ∈
        (move_to_sent_trace name e result nowIso).take k →
      FsOp.write (sentPath name) (sentEntry e nowIso result) ∈
        (move_to_sent_trace name e result nowIso).take k) ∧
    (∃ i j : Nat, i < j ∧
      (move_to_failed_trace name e error tb nowIso).get? i =
        some (FsOp.write (failedPath name) (failedEntry e nowIso error tb)) ∧
      (move_to_failed_trace name e error tb nowIso).get? j =
        some (FsOp.unlink (pendingPath name))) ∧
    (∀ k, FsOp.unlink (pendingPath name) ∈
        (move_to_failed_trace name e error tb nowIso).take k →
      FsOp.write (failedPath name) (failedEntry e nowIso error tb) ∈
        (move_to_failed_trace name e error tb nowIso).take k) ∧
    (sentEntry e nowIso result).payload = e.payload ∧
    (sentEntry e nowIso result).queued_at = e.queued_at ∧
    (sentEntry e nowIso result).metadata = e.metadata ∧
    (sentEntry e nowIso result).schema_version = e.schema_version ∧
    (sentEntry e nowIso result).sent_at = some nowIso ∧
    (sentEntry e nowIso result).result = some result ∧
    (failedEntry e nowIso error tb).payload = e.payload ∧
    (failedEntry e nowIso error tb).queued_at = e.queued_at ∧
    (failedEntry e nowIso error tb).metadata = e.metadata ∧
    (failedEntry e nowIso error tb).schema_version = e.schema_version ∧
    (failedEntry e nowIso error tb).failed_at = some nowIso ∧
    (failedEntry e nowIso error tb).error = some error := by
  refine ⟨⟨1, 2, by omega, rfl, rfl⟩, ?_, ⟨1, 2, by omega, rfl, rfl⟩, ?_,
    rfl, rfl, rfl, rfl, rfl, rfl, rfl, rfl, rfl, rfl, rfl, rfl⟩
  · intro k hk
    match k with
    | 0 => simp [move_to_sent_trace] at hk
    | 1 => simp [move_to_sent_trace] at hk
    | 2 => simp [move_to_sent_trace] at hk
    | (n + 3) =>
      simp only [move_to_sent_trace, List.take_succ_cons] at hk ⊢
      simp at hk ⊢
  · intro k hk
    match k with
    | 0 => simp [move_to_failed_trace] at hk
    | 1 => simp [move_to_failed_trace] at hk
    | 2 => simp [move_to_failed_trace] at hk
    | (n + 3) =>
      simp only [move_to_failed_trace, List.take_succ_cons] at hk ⊢
      simp at hk ⊢


theorem dirGet_fsWrite_self (dir : SpoolDir) (name : String) (e : SpoolEntry) :
    dirGet (fsWrite dir name e) name = some e := by
  induction dir with
  | nil => simp [fsWrite, dirGet]
  | cons p rest ih =>
    obtain ⟨n, v⟩ := p
    by_cases hn : n = name
    · simp [fsWrite, hn, dirGet]
    · simp [fsWrite, hn, dirGet, ih]

theorem dirGet_fsWrite_other (dir : SpoolDir) (name name' : String)
    (e : SpoolEntry) (h : name' ≠ name) :
    dirGet (fsWrite dir name e) name' = dirGet dir name' := by
  induction dir with
  | nil => simp [fsWrite, dirGet, Ne.symm h]
  | cons p rest ih =>
    obtain ⟨n, v⟩ := p
    by_cases hn : n = name
    · subst hn
      simp [fsWrite, dirGet, if_neg (Ne.symm h)]
    · simp [fsWrite, hn, dirGet, ih]

theorem fsWrite_of_fresh (dir : SpoolDir) (name : String) (e : SpoolEntry)
    (h : dirGet dir name = none) : fsWrite dir name e = dir ++ [(name, e)] := by
  induction dir with
  | nil => rfl
  | cons p rest ih =>
    obtain ⟨n, v⟩ := p
    by_cases hn : n = name
    · simp [dirGet, hn] at h
    · simp only [dirGet, hn, if_false] at h
      simp [fsWrite, hn, ih h]

theorem countP_key_of_dirGet_none (dir : SpoolDir) (name : String)
    (h : dirGet dir name = none) :
    dir.countP (fun p => decide (p.1 = name)) = 0 := by
  induction dir with
  | nil => rfl
  | cons p rest ih =>
    by_cases hn : p.1 = name
    · simp [dirGet, hn] at h
    · simp only [dirGet, hn, if_false] at h
      simp [List.countP_cons, hn, ih h]

theorem countP_key_filter_ne (dir : SpoolDir) (name : String) :
    (dir.filter (fun p => decide (p.1 ≠ name))).countP
      (fun p => decide (p.1 = name)) = 0 := by
  rw [List.countP_eq_zero]
  intro p hp
  have := (List.mem_filter.mp hp).2
  simp at this ⊢
  exact this

/-- C2.  Round-trip through the spool: enqueueing a payload and reading the
resulting pending file back yields the stored payload unchanged, and
transitioning that entry to sent leaves zero files for the entry in
`pending/` and exactly one in `sent/`, whose content is the original entry
(schema_version, queued_at, metadata, payload) plus `sent_at` and the
result.  The hypotheses say the generated time/uuid name is fresh. -/
theorem c2_enqueue_roundtrip_and_sent
    (s : SpoolState) (payload : Json) (md : Option Json) (now1 : String)
    (t : Nat) (hex : String) (result : Json) (now2 : String)
    (hp : dirGet s.pending (spoolFileName t hex) = none)
    (hs : dirGet s.sent (spoolFileName t hex) = none) :
    load_entry (queue_payload s payload md now1 t hex).1 (spoolFileName t hex) =
      some (mkPendingEntry now1 md payload) ∧
    (mkPendingEntry now1 md payload).payload = payload ∧
    ∃ s2, move_to_sent (queue_payload s payload md now1 t hex).1
        (spoolFileName t hex) result now2 = some s2 ∧
      s2.pending.countP (fun p => decide (p.1 = spoolFileName t hex)) = 0 ∧
      s2.sent.countP (fun p => decide (p.1 = spoolFileName t hex)) = 1 ∧
      dirGet s2.sent (spoolFileName t hex) = some
        { schema_version := 1
          queued_at := now1
          metadata := md.getD (Json.obj [])
          payload := payload
          sent_at := some now2
          result := some result } := by
  have hload : dirGet (queue_payload s payload md now1 t hex).1.pending
      (spoolFileName t hex) = some (mkPendingEntry now1 md payload) :=
    dirGet_fsWrite_self _ _ _
  refine ⟨hload, rfl, ?_⟩
  rw [show move_to_sent (queue_payload s payload md now1 t hex).1
        (spoolFileName t hex) result now2 = some _ by
      unfold move_to_sent; rw [hload]]
  refine ⟨_, rfl, countP_key_filter_ne _ _, ?_, ?_⟩
  · show ((fsWrite s.sent (spoolFileName t hex)
        (sentEntry (mkPendingEntry now1 md payload) now2 result)).countP
        (fun p => decide (p.1 = spoolFileName t hex))) = 1
    rw [fsWrite_of_fresh _ _ _ hs, List.countP_append,
      countP_key_of_dirGet_none _ _ hs]
    simp [List.countP_cons]
  · show dirGet (fsWrite s.sent (spoolFileName t hex)
        (sentEntry (mkPendingEntry now1 md payload) now2 result))
        (spoolFileName t hex) = _
    rw [dirGet_fsWrite_self]
    rfl

/-- Witness for C2 at a concrete enqueue/transition. -/
theorem c2_enqueue_roundtrip_and_sent_witness :
    load_entry (queue_payload ⟨[], [], []⟩ (Json.str "hello") none
        "2025-01-01T00:00:00+00:00" 1700000000 "abc").1
      (spoolFileName 1700000000 "abc") =
      some (mkPendingEntry "2025-01-01T00:00:00+00:00" none (Json.str "hello")) :=
  (c2_enqueue_roundtrip_and_sent ⟨[], [], []⟩ (Json.str "hello") none
    "2025-01-01T00:00:00+00:00" 1700000000 "abc" (Json.obj [])
    "2025-01-01T00:01:00+00:00" rfl rfl).1

/-- `spool_utils.iter_pending`: the sorted `*.json` names of the pending
directory, truncated to `limit` when given. -/
def iter_pending (s : SpoolState) (limit : Option Nat) : List String :=
  let files := sortStrings
    ((s.pending.map (fun p => p.1)).filter (fun n => strEndsWith ".json" n))
  match limit with
  | some l => files.take l
  | none => files

/-- The loop body of `run_spool.process_pending` over a snapshot of
pending names.  `exec` models `execute_payload_sync`: `Except.error msg`
is an exception with text `msg`, caught at the per-entry boundary and
routed to `move_to_failed` (no traceback argument in `run_spool`);
otherwise the entry moves to sent.  `none` models an uncaught crash (a
pending file vanishing mid-loop), which cannot happen in a single run. -/
def processGo (exec : Json → Except String Json) (nowIso : String) :
    SpoolState → List String → Nat → Option (SpoolState × Nat)
  | s, [], n => some (s, n)
  | s, name :: rest, n =>
    match load_entry s name with
    | none => none
    | some entry =>
      match exec entry.payload with
      | Except.error msg =>
        match move_to_failed s name msg none nowIso with
        | none => none
        | some s' => processGo exec nowIso s' rest (n + 1)
      | Except.ok result =>
        match move_to_sent s name result nowIso with
        | none => none
        | some s' => processGo exec nowIso s' rest (n + 1)

/-- `run_spool.process_pending(limit)` (the non-dry-run path): drain the
snapshot of pending entries and return the new state with the count of
processed entries. -/
def process_pending (s : SpoolState) (exec : Json → Except String Json)
    (limit : Option Nat) (nowIso : String) : Option (SpoolState × Nat) :=
  processGo exec nowIso s (iter_pending s limit) 0

/-- `deliver_spool.deliver_file` (non-dry-run path): deliver one entry;
on an exception, move it to failed with the error text and
`traceback.format_exc()` (`tbText`). -/
def deliver_file (s : SpoolState) (name : String)
    (exec : Json → Except String Json) (tbText : String) (nowIso : String) :
    Option SpoolState :=
  match load_entry s name with
  | none => none
  | some entry =>
    match exec entry.payload with
    | Except.error msg => move_to_failed s name msg (some tbText) nowIso
    | Except.ok result => move_to_sent s name result nowIso

theorem dirGet_filter_ne (dir : SpoolDir) (name name' : String)
    (h : name' ≠ name) :
    dirGet (dir.filter (fun p => decide (p.1 ≠ name))) name' =
      dirGet dir name' := by
  induction dir with
  | nil => rfl
  | cons p rest ih =>
    obtain ⟨n, v⟩ := p
    rw [List.filter_cons]
    by_cases hn : n = name
    · rw [if_neg (by simp [hn])]
      rw [ih]
      have hne : ¬ n = name' := by rw [hn]; exact Ne.symm h
      simp [dirGet, hne]
    · rw [if_pos (by simp [hn])]
      by_cases hn' : n = name'
      · simp [dirGet, hn']
      · simp only [dirGet, if_neg hn']
        exact ih

theorem move_to_sent_shape (s : SpoolState) (name : String) (result : Json)
    (now : String) (e : SpoolEntry) (he : dirGet s.pending name = some e) :
    move_to_sent s name result now = some
      { pending := s.pending.filter (fun p => decide (p.1 ≠ name))
        sent := fsWrite s.sent name (sentEntry e now result)
        failed := s.failed } := by
  unfold move_to_sent
  rw [he]

theorem move_to_failed_shape (s : SpoolState) (name : String) (msg : String)
    (tb : Option String) (now : String) (e : SpoolEntry)
    (he : dirGet s.pending name = some e) :
    move_to_failed s name msg tb now = some
      { pending := s.pending.filter (fun p => decide (p.1 ≠ name))
        sent := s.sent
        failed := fsWrite s.failed name (failedEntry e now msg tb) } := by
  unfold move_to_failed
  rw [he]

theorem processGo_spec (exec : Json → Except String Json) (now : String) :
    ∀ (names : List String) (s : SpoolState) (n : Nat),
    names.Nodup →
    (∀ name ∈ names, (dirGet s.pending name).isSome) →
    ∃ s', processGo exec now s names n = some (s', n + names.length) ∧
      (∀ name e msg, name ∈ names → dirGet s.pending name = some e →
        exec e.payload = Except.error msg →
        dirGet s'.failed name = some (failedEntry e now msg none)) ∧
      (∀ name, name ∉ names →
        dirGet s'.pending name = dirGet s.pending name ∧
        dirGet s'.sent name = dirGet s.sent name ∧
        dirGet s'.failed name = dirGet s.failed name) := by
  intro names
  induction names with
  | nil =>
    intro s n _ _
    exact ⟨s, rfl, by simp, fun name _ => ⟨rfl, rfl, rfl⟩⟩
  | cons name rest ih =>
    intro s n hnodup hsome
    obtain ⟨e, he⟩ := Option.isSome_iff_exists.mp
      (hsome name (List.mem_cons_self _ _))
    have hrest_nodup : rest.Nodup := (List.nodup_cons.mp hnodup).2
    have hnmem : name ∉ rest := (List.nodup_cons.mp hnodup).1
    cases hexec : exec e.payload with
    | error msg =>
      have hstep := move_to_failed_shape s name msg none now e he
      set s1 : SpoolState :=
        { pending := s.pending.filter (fun p => decide (p.1 ≠ name))
          sent := s.sent
          failed := fsWrite s.failed name (failedEntry e now msg none) }
        with hs1
      have hpend1 : ∀ name', name' ≠ name →
          dirGet s1.pending name' = dirGet s.pending name' := by
        intro name' hne
        exact dirGet_filter_ne _ _ _ hne
      have hsome1 : ∀ nm ∈ rest, (dirGet s1.pending nm).isSome := by
        intro nm hm
        rw [hpend1 nm (fun hc => hnmem (hc ▸ hm))]
        exact hsome nm (List.mem_cons_of_mem _ hm)
      obtain ⟨s', hrun, hfails, hframe⟩ := ih s1 (n + 1) hrest_nodup hsome1
      refine ⟨s', ?_, ?_, ?_⟩
      · show processGo exec now s (name :: rest) n = _
        simp only [processGo, load_entry, he, hexec, hstep, hrun,
          List.length_cons, Option.some.injEq, Prod.mk.injEq]
        exact ⟨trivial, by omega⟩
      · intro nm e' msg' hm he' hexec'
        rcases List.mem_cons.mp hm with hm | hm
        · subst hm
          rw [he] at he'
          injection he' with he''
          subst he''
          rw [hexec] at hexec'
          injection hexec' with hmsg
          subst hmsg
          rw [(hframe nm hnmem).2.2]
          exact dirGet_fsWrite_self _ _ _
        · refine hfails nm e' msg' hm ?_ hexec'
          rw [hpend1 nm (fun hc => hnmem (hc ▸ hm))]
          exact he'
      · intro nm hm
        have hne : nm ≠ name := fun hc => hm (hc ▸ List.mem_cons_self _ _)
        have hmr : nm ∉ rest := fun hc => hm (List.mem_cons_of_mem _ hc)
        obtain ⟨h1, h2, h3⟩ := hframe nm hmr
        refine ⟨?_, ?_, ?_⟩
        · rw [h1]; exact hpend1 nm hne
        · exact h2
        · rw [h3]
          show dirGet (fsWrite s.failed name (failedEntry e now msg none)) nm =
            dirGet s.failed nm
          exact dirGet_fsWrite_other _ _ _ _ hne
    | ok result =>
      have hstep := move_to_sent_shape s name result now e he
      set s1 : SpoolState :=
        { pending := s.pending.filter (fun p => decide (p.1 ≠ name))
          sent := fsWrite s.sent name (sentEntry e now result)
          failed := s.failed }
        with hs1
      have hpend1 : ∀ name', name' ≠ name →
          dirGet s1.pending name' = dirGet s.pending name' := by
        intro name' hne
        exact dirGet_filter_ne _ _ _ hne
      have hsome1 : ∀ nm ∈ rest, (dirGet s1.pending nm).isSome := by
        intro nm hm
        rw [hpend1 nm (fun hc => hnmem (hc ▸ hm))]
        exact hsome nm (List.mem_cons_of_mem _ hm)
      obtain ⟨s', hrun, hfails, hframe⟩ := ih s1 (n + 1) hrest_nodup hsome1
      refine ⟨s', ?_, ?_, ?_⟩
      · show processGo exec now s (name :: rest) n = _
        simp only [processGo, load_entry, he, hexec, hstep, hrun,
          List.length_cons, Option.some.injEq, Prod.mk.injEq]
        exact ⟨trivial, by omega⟩
      · intro nm e' msg' hm he' hexec'
        rcases List.mem_cons.mp hm with hm | hm
        · subst hm
          rw [he] at he'
          injection he' with he''
          subst he''
          rw [hexec] at hexec'
          simp at hexec'
        · refine hfails nm e' msg' hm ?_ hexec'
          rw [hpend1 nm (fun hc => hnmem (hc ▸ hm))]
          exact he'
      · intro nm hm
        have hne : nm ≠ name := fun hc => hm (hc ▸ List.mem_cons_self _ _)
        have hmr : nm ∉ rest := fun hc => hm (List.mem_cons_of_mem _ hc)
        obtain ⟨h1, h2, h3⟩ := hframe nm hmr
        refine ⟨?_, ?_, ?_⟩
        · rw [h1]; exact hpend1 nm hne
        · rw [h2]
          show dirGet (fsWrite s.sent name (sentEntry e now result)) nm =
            dirGet s.sent nm
          exact dirGet_fsWrite_other _ _ _ _ hne
        · exact h3

theorem lexLe_total (as bs : List Char) :
    lexLe as bs = true ∨ lexLe bs as = true := by
  induction as generalizing bs with
  | nil => exact Or.inl rfl
  | cons a as ih =>
    cases bs with
    | nil => exact Or.inr rfl
    | cons b bs =>
      by_cases h1 : a.toNat < b.toNat
      · left; simp [lexLe, h1]
      · by_cases h2 : b.toNat < a.toNat
        · right; simp [lexLe, h2]
        · rcases ih bs with h | h
          · left; simp [lexLe, h1, h2, h]
          · right; simp [lexLe, h1, h2, h]

theorem lexLe_trans (as bs cs : List Char) :
    lexLe as bs = true → lexLe bs cs = true → lexLe as cs = true := by
  induction as generalizing bs cs with
  | nil => intro _ _; rfl
  | cons a as ih =>
    cases bs with
    | nil => intro h _; simp [lexLe] at h
    | cons b bs =>
      cases cs with
      | nil => intro _ h; simp [lexLe] at h
      | cons c cs =>
        intro h1 h2
        simp only [lexLe] at h1 h2 ⊢
        have tri1 : a.toNat < b.toNat ∨ (a.toNat = b.toNat ∧ lexLe as bs = true) := by
          by_cases hab : a.toNat < b.toNat
          · exact Or.inl hab
          · by_cases hba : b.toNat < a.toNat
            · rw [if_neg hab, if_pos hba] at h1; exact absurd h1 (by simp)
            · exact Or.inr ⟨by omega, by rwa [if_neg hab, if_neg hba] at h1⟩
        have tri2 : b.toNat < c.toNat ∨ (b.toNat = c.toNat ∧ lexLe bs cs = true) := by
          by_cases hbc : b.toNat < c.toNat
          · exact Or.inl hbc
          · by_cases hcb : c.toNat < b.toNat
            · rw [if_neg hbc, if_pos hcb] at h2; exact absurd h2 (by simp)
            · exact Or.inr ⟨by omega, by rwa [if_neg hbc, if_neg hcb] at h2⟩
        rcases tri1 with hab | ⟨hab, h1'⟩ <;> rcases tri2 with hbc | ⟨hbc, h2'⟩
        · rw [if_pos (by omega : a.toNat < c.toNat)]
        · rw [if_pos (by omega : a.toNat < c.toNat)]
        · rw [if_pos (by omega : a.toNat < c.toNat)]
        · rw [if_neg (by omega : ¬ a.toNat < c.toNat),
            if_neg (by omega : ¬ c.toNat < a.toNat)]
          exact ih bs cs h1' h2'

theorem strLe_total (a b : String) : strLe a b = true ∨ strLe b a = true :=
  lexLe_total a.data b.data

theorem strLe_trans {a b c : String} :
    strLe a b = true → strLe b c = true → strLe a c = true :=
  lexLe_trans a.data b.data c.data

theorem mem_insertSorted (x y : String) (l : List String) :
    y ∈ insertSorted x l ↔ y = x ∨ y ∈ l := by
  induction l with
  | nil => simp [insertSorted]
  | cons z zs ih =>
    unfold insertSorted
    by_cases h : strLe x z = true
    · rw [if_pos h]
      simp [List.mem_cons]
    · rw [if_neg h]
      simp only [List.mem_cons, ih]
      tauto

theorem sorted_insertSorted (x : String) (l : List String)
    (hs : l.Sorted (fun a b => strLe a b = true)) :
    (insertSorted x l).Sorted (fun a b => strLe a b = true) := by
  induction l with
  | nil => simp [insertSorted]
  | cons y ys ih =>
    rw [List.sorted_cons] at hs
    unfold insertSorted
    by_cases hxy : strLe x y = true
    · rw [if_pos hxy, List.sorted_cons]
      refine ⟨?_, by rw [List.sorted_cons]; exact hs⟩
      intro b hb
      rcases List.mem_cons.mp hb with rfl | hb
      · exact hxy
      · exact strLe_trans hxy (hs.1 b hb)
    · rw [if_neg hxy, List.sorted_cons]
      refine ⟨?_, ih hs.2⟩
      intro b hb
      rcases (mem_insertSorted x b ys).mp hb with rfl | hb
      · rcases strLe_total b y with h | h
        · exact absurd h hxy
        · exact h
      · exact hs.1 b hb

theorem perm_insertSorted (x : String) (l : List String) :
    (insertSorted x l).Perm (x :: l) := by
  induction l with
  | nil => exact List.Perm.refl _
  | cons y ys ih =>
    unfold insertSorted
    by_cases h : strLe x y = true
    · rw [if_pos h]
    · rw [if_neg h]
      exact (ih.cons y).trans (List.Perm.swap x y ys)

theorem perm_sortStrings (l : List String) : (sortStrings l).Perm l := by
  induction l with
  | nil => exact List.Perm.refl _
  | cons x xs ih =>
    exact (perm_insertSorted x (sortStrings xs)).trans (ih.cons x)

theorem sorted_sortStrings (l : List String) :
    (sortStrings l).Sorted (fun a b => strLe a b = true) := by
  induction l with
  | nil => simp [sortStrings]
  | cons x xs ih => exact sorted_insertSorted x (sortStrings xs) ih

theorem dirGet_isSome_of_mem_keys (dir : SpoolDir) (name : String)
    (h : name ∈ dir.map (fun p => p.1)) : (dirGet dir name).isSome := by
  induction dir with
  | nil => simp at h
  | cons p rest ih =>
    rcases List.mem_cons.mp h with hh | hh
    · simp [dirGet, hh.symm]
    · by_cases hn : p.1 = name
      · simp [dirGet, hn]
      · simp only [dirGet, hn, if_false]
        exact ih hh

theorem mem_keys_of_mem_iter_pending (s : SpoolState) (limit : Option Nat)
    (name : String) (h : name ∈ iter_pending s limit) :
    name ∈ s.pending.map (fun p => p.1) := by
  have hsorted : name ∈ sortStrings
      ((s.pending.map (fun p => p.1)).filter (fun n => strEndsWith ".json" n)) := by
    cases limit with
    | none => exact h
    | some l => exact List.take_subset l _ h
  have := (perm_sortStrings _).mem_iff.mp hsorted
  exact (List.mem_filter.mp this).1

theorem nodup_iter_pending (s : SpoolState) (limit : Option Nat)
    (h : (s.pending.map (fun p => p.1)).Nodup) :
    (iter_pending s limit).Nodup := by
  have hf : ((s.pending.map (fun p => p.1)).filter
      (fun n => strEndsWith ".json" n)).Nodup := h.filter _
  have hsort : (sortStrings ((s.pending.map (fun p => p.1)).filter
      (fun n => strEndsWith ".json" n))).Nodup :=
    ((perm_sortStrings _).nodup_iff).mpr hf
  cases limit with
  | none => exact hsort
  | some l => exact hsort.sublist (List.take_sublist l _)

/-- C6.  A delivery exception is caught at the per-entry boundary: the
drain loop (`run_spool.process_pending`) finishes the whole snapshot —
returning a count equal to its length, never propagating — and every
entry whose delivery raised ends in `failed/` with the error text; and
`deliver_spool.deliver_file` transitions a raising entry to `failed/`
with the error text and the traceback. -/
theorem c6_drain_catches_per_entry_failures
    (s : SpoolState) (exec : Json → Except String Json) (limit : Option Nat)
    (now : String) (tb : String)
    (hnodup : (s.pending.map (fun p => p.1)).Nodup) (htb : tb ≠ "") :
    (∃ s', process_pending s exec limit now =
        some (s', (iter_pending s limit).length) ∧
      ∀ name e msg, name ∈ iter_pending s limit →
        dirGet s.pending name = some e →
        exec e.payload = Except.error msg →
        dirGet s'.failed name = some (failedEntry e now msg none)) ∧
    (∀ name e msg, dirGet s.pending name = some e →
      exec e.payload = Except.error msg →
      ∃ s2, deliver_file s name exec tb now = some s2 ∧
        dirGet s2.failed name = some (failedEntry e now msg (some tb))) := by
  constructor
  · obtain ⟨s', hrun, hfails, _⟩ := processGo_spec exec now (iter_pending s limit) s 0
      (nodup_iter_pending s limit hnodup)
      (fun name hm => dirGet_isSome_of_mem_keys _ _
        (mem_keys_of_mem_iter_pending s limit name hm))
    refine ⟨s', ?_, hfails⟩
    show processGo exec now s (iter_pending s limit) 0 = _
    rw [hrun]
    simp
  · intro name e msg he hexec
    have hstep : deliver_file s name exec tb now = some
        { pending := s.pending.filter (fun p => decide (p.1 ≠ name))
          sent := s.sent
          failed := fsWrite s.failed name (failedEntry e now msg (some tb)) } := by
      simp only [deliver_file, load_entry, he, hexec]
      exact move_to_failed_shape s name msg (some tb) now e he
    exact ⟨_, hstep, dirGet_fsWrite_self _ _ _⟩

/-- Witness for C6: a one-entry spool whose delivery raises is moved to
`failed/` with the error text, and the drain loop still reports one
processed entry. -/
theorem c6_drain_catches_per_entry_failures_witness :
    ∃ s2, deliver_file
        (queue_payload ⟨[], [], []⟩ (Json.str "x") none "T0" 100 "aa").1
        "100-aa.json" (fun _ => Except.error "boom") "trace-text" "T1" =
        some s2 ∧
      dirGet s2.failed "100-aa.json" =
        some (failedEntry (mkPendingEntry "T0" none (Json.str "x"))
          "T1" "boom" (some "trace-text")) :=
  (c6_drain_catches_per_entry_failures
    (queue_payload ⟨[], [], []⟩ (Json.str "x") none "T0" 100 "aa").1
    (fun _ => Except.error "boom") none "T1" "trace-text"
    (by decide) (by decide)).2 "100-aa.json"
    (mkPendingEntry "T0" none (Json.str "x")) "boom" rfl rfl

/-- C7.  `iter_pending` lists the pending `*.json` names in lexicographic
(code-point) order, listing exactly the snapshot of pending names; a limit
takes from the front of that order.  Queueing three payloads (at seconds
100, 101, 102) and draining with `limit=2` processes exactly the two
oldest entries, moving them to `sent/` and leaving exactly the newest one
in `pending/`. -/
theorem c7_iter_pending_order_and_limit :
    (∀ (s : SpoolState) (limit : Option Nat),
      (iter_pending s limit).Sorted (fun a b => strLe a b = true)) ∧
    (∀ (s : SpoolState) (l : Nat),
      iter_pending s (some l) = (iter_pending s none).take l) ∧
    (∀ s : SpoolState, (iter_pending s none).Perm
      ((s.pending.map (fun p => p.1)).filter (fun n => strEndsWith ".json" n))) ∧
    (process_pending
        (queue_payload (queue_payload (queue_payload ⟨[], [], []⟩
          (Json.str "p1") none "T1" 100 "aa").1
          (Json.str "p2") none "T2" 101 "bb").1
          (Json.str "p3") none "T3" 102 "cc").1
        (fun _ => Except.ok (Json.obj [])) (some 2) "T4").map
      (fun r => (r.2, r.1.pending.map (fun p => p.1),
        r.1.sent.map (fun p => p.1), r.1.failed.map (fun p => p.1))) =
      some (2, ["102-cc.json"], ["100-aa.json", "101-bb.json"], []) := by
  refine ⟨?_, ?_, ?_, ?_⟩
  · intro s limit
    cases limit with
    | none => exact sorted_sortStrings _
    | some l =>
      exact List.Pairwise.sublist (List.take_sublist _ _) (sorted_sortStrings _)
  · intro s l
    rfl
  · intro s
    exact perm_sortStrings _
  · decide

/-- C8 counterexample.  `queue_payload` writes with `write_text`, which
replaces an existing file: when the generated `{time}-{hex}` name collides
with a file already present in `pending/`, the old record is overwritten
by the new one rather than preserved. -/
theorem c8_collision_overwrites_counterexample :
    dirGet (queue_payload ⟨[], [], []⟩ (Json.str "old") none "T0" 5 "aa").1.pending
        "5-aa.json" = some (mkPendingEntry "T0" none (Json.str "old")) ∧
    (queue_payload (queue_payload ⟨[], [], []⟩ (Json.str "old") none "T0" 5 "aa").1
        (Json.str "new") none "T1" 5 "aa").2 = "5-aa.json" ∧
    dirGet (queue_payload (queue_payload ⟨[], [], []⟩ (Json.str "old") none "T0" 5 "aa").1
        (Json.str "new") none "T1" 5 "aa").1.pending "5-aa.json" =
      some (mkPendingEntry "T1" none (Json.str "new")) ∧
    mkPendingEntry "T1" none (Json.str "new") ≠
      mkPendingEntry "T0" none (Json.str "old") := by
  refine ⟨rfl, rfl, rfl, ?_⟩
  intro h
  have hq := congrArg SpoolEntry.queued_at h
  exact absurd hq (by decide)

/-- C8 (amended).  `queue_payload` writes the new record under the
`{unix_seconds}-{random_hex}.json` name; when that name does not collide
with an existing pending file the write is a pure append — every existing
file in `pending/` (and all of `sent/` and `failed/`) is preserved
unchanged.  Collision-freedom rests on the randomness of the suffix, not
on any existence check (see the counterexample). -/
theorem c8_enqueue_fresh_name_no_overwrite
    (s : SpoolState) (payload : Json) (md : Option Json) (now : String)
    (t : Nat) (hex : String)
    (hfresh : dirGet s.pending (spoolFileName t hex) = none) :
    (queue_payload s payload md now t hex).2 = spoolFileName t hex ∧
    (queue_payload s payload md now t hex).1.pending =
      s.pending ++ [(spoolFileName t hex, mkPendingEntry now md payload)] ∧
    (∀ name, name ≠ spoolFileName t hex →
      dirGet (queue_payload s payload md now t hex).1.pending name =
        dirGet s.pending name) ∧
    (queue_payload s payload md now t hex).1.sent = s.sent ∧
    (queue_payload s payload md now t hex).1.failed = s.failed := by
  refine ⟨rfl, fsWrite_of_fresh _ _ _ hfresh, ?_, rfl, rfl⟩
  intro name hne
  exact dirGet_fsWrite_other _ _ _ _ hne

/-- Witness for the amended C8 at a concrete fresh enqueue. -/
theorem c8_enqueue_fresh_name_no_overwrite_witness :
    (queue_payload ⟨[], [], []⟩ (Json.str "p") none "T" 7 "ff").1.pending =
      [] ++ [(spoolFileName 7 "ff", mkPendingEntry "T" none (Json.str "p"))] :=
  (c8_enqueue_fresh_name_no_overwrite ⟨[], [], []⟩ (Json.str "p") none "T" 7 "ff"
    rfl).2.1

/-- Python dict lookup for the template variable maps (first match). -/
def lookupVar : List (String × String) → String → Option String
  | [], _ => none
  | (k, v) :: rest, name => if k = name then some v else lookupVar rest name

/-- First character class of a `string.Template` identifier: `[_a-zA-Z]`. -/
def isIdentStart (c : Char) : Bool :=
  decide (c = '_' ∨ ('a' ≤ c ∧ c ≤ 'z') ∨ ('A' ≤ c ∧ c ≤ 'Z'))

/-- Continuation character class of an identifier: `[_a-zA-Z0-9]`. -/
def isIdentChar (c : Char) : Bool :=
  isIdentStart c || decide ('0' ≤ c ∧ c ≤ '9')

theorem length_dropWhile_le' (p : Char → Bool) (l : List Char) :
    (l.dropWhile p).length ≤ l.length := by
  induction l with
  | nil => simp
  | cons c cs ih =>
    rw [List.dropWhile_cons]
    by_cases h : p c = true
    · rw [if_pos h]; simp; omega
    · rw [if_neg h]

/-- The scanner of `string.Template.safe_substitute` with the default
pattern: `$$` is an escaped dollar, `$name` and `${name}` are substituted
when the identifier is a key of the map and left verbatim otherwise, and a
`$` matching neither form is left in place (safe mode never raises). -/
def subst (vars : List (String × String)) : List Char → List Char
  | [] => []
  | c :: rest =>
    if c = '$' then
      match rest with
      | [] => ['$']
      | d :: rest2 =>
        if d = '$' then '$' :: subst vars rest2
        else if isIdentStart d then
          match lookupVar vars (String.mk ((d :: rest2).takeWhile isIdentChar)) with
          | some v => v.data ++ subst vars ((d :: rest2).dropWhile isIdentChar)
          | none => '$' :: ((d :: rest2).takeWhile isIdentChar ++
              subst vars ((d :: rest2).dropWhile isIdentChar))
        else if d = '{' then
          match rest2 with
          | [] => '$' :: subst vars ['{']
          | e :: tl =>
            if isIdentStart e then
              if hb : ((e :: tl).dropWhile isIdentChar).head? = some '}' then
                match lookupVar vars
                    (String.mk ((e :: tl).takeWhile isIdentChar)) with
                | some v => v.data ++ subst vars ((e :: tl).dropWhile isIdentChar).tail
                | none => '$' :: '{' :: ((e :: tl).takeWhile isIdentChar ++
                    '}' :: subst vars ((e :: tl).dropWhile isIdentChar).tail)
              else '$' :: subst vars ('{' :: e :: tl)
            else '$' :: subst vars ('{' :: e :: tl)
        else '$' :: subst vars (d :: rest2)
    else c :: subst vars rest
termination_by l => l.length
decreasing_by
  all_goals simp_wf
  all_goals try omega
  all_goals first
    | (have h1 := length_dropWhile_le' isIdentChar (e :: tl)
       have h2 : ((e :: tl).dropWhile isIdentChar) ≠ [] := by
         intro hc
         rw [hc] at hb
         exact absurd hb (by simp)
       cases hdw : (e :: tl).dropWhile isIdentChar with
       | nil => exact absurd hdw h2
       | cons y ys =>
         rw [hdw] at h1
         simp only [List.length_cons, hdw, List.tail_cons] at h1 ⊢
         omega)
    | (have h1 := length_dropWhile_le' isIdentChar (e :: tl)
       simp only [List.length_cons] at h1
       omega)

/-- `server._safe_template(text, variables)`: return the text unchanged
when the variable map is falsy, otherwise `Template(text).safe_substitute`. -/
def _safe_template (text : String) (vars : List (String × String)) : String :=
  if vars.isEmpty then text else String.mk (subst vars text.data)

theorem subst_cons_ne_dollar (vars : List (String × String)) (c : Char)
    (rest : List Char) (hc : c ≠ '$') :
    subst vars (c :: rest) = c :: subst vars rest := by
  match rest with
  | [] => simp [subst, hc]
  | [x] => simp [subst, hc]
  | x :: y :: tl => simp [subst, hc]

theorem subst_no_dollar (vars : List (String × String)) (l t : List Char)
    (h : ∀ c ∈ l, c ≠ '$') : subst vars (l ++ t) = l ++ subst vars t := by
  induction l with
  | nil => rfl
  | cons c cs ih =>
    have hc : c ≠ '$' := h c (by simp)
    rw [List.cons_append, subst_cons_ne_dollar vars c _ hc,
      ih (fun d hd => h d (by simp [hd])), List.cons_append]

theorem takeWhile_dropWhile_append (p : Char → Bool) (l : List Char) (x : Char)
    (t : List Char) (hall : ∀ c ∈ l, p c = true) (hx : p x = false) :
    (l ++ x :: t).takeWhile p = l ∧ (l ++ x :: t).dropWhile p = x :: t := by
  induction l with
  | nil =>
    exact ⟨by simp [List.takeWhile_cons, hx], by simp [List.dropWhile_cons, hx]⟩
  | cons c cs ih =>
    have hc : p c = true := hall c (by simp)
    have ih' := ih (fun d hd => hall d (by simp [hd]))
    simp [List.takeWhile_cons, List.dropWhile_cons, hc, ih'.1, ih'.2]

theorem subst_braced (vars : List (String × String)) (name : String)
    (post : List Char) (hne : name.data ≠ [])
    (hall : ∀ c ∈ name.data, isIdentChar c = true)
    (hstart : ∀ c, name.data.head? = some c → isIdentStart c = true) :
    subst vars ('$' :: '{' :: (name.data ++ '}' :: post)) =
      match lookupVar vars name with
      | some v => v.data ++ subst vars post
      | none => '$' :: '{' :: (name.data ++ '}' :: subst vars post) := by
  obtain ⟨c0, cs, hdata⟩ : ∃ c0 cs, name.data = c0 :: cs := by
    cases hnd : name.data with
    | nil => exact absurd hnd hne
    | cons a b => exact ⟨a, b, rfl⟩
  have hstart0 : isIdentStart c0 = true := hstart c0 (by rw [hdata]; rfl)
  have hbrace : isIdentChar '}' = false := by decide
  have htd := takeWhile_dropWhile_append isIdentChar (c0 :: cs) '}' post
    (fun d hd => hall d (by rw [hdata]; exact hd)) hbrace
  have hmk : String.mk (c0 :: cs) = name := by rw [← hdata]
  rw [hdata, List.cons_append]
  rw [subst]
  rw [if_pos rfl]
  rw [if_neg (by decide : ¬ ('{' : Char) = '$')]
  rw [if_neg (by simp [isIdentStart] : ¬ isIdentStart '{' = true)]
  rw [if_pos rfl]
  rw [if_pos hstart0]
  rw [List.cons_append] at htd
  rw [dif_pos (by rw [htd.2]; rfl)]
  rw [htd.1, htd.2, hmk]
  rfl

/-- C9.  `_safe_template` substitutes `${name}` placeholders whose names
are keys of the variable map and leaves placeholders with absent names
verbatim, never raising; with an empty map the text comes back unchanged
(`render(text, {}) = text`), `render("Hi ${name}", {name: "A"}) = "Hi A"`,
and `render("Hi ${missing}", m) = "Hi ${missing}"` whenever `missing` is
not a key of `m`.  The last two conjuncts state the general contract: for
a dollar-free prefix and a well-formed identifier, a present placeholder
is replaced by its value and an absent one is left verbatim, with
scanning continuing after it. -/
theorem c9_safe_template_tolerant_substitution :
    (∀ text : String, _safe_template text [] = text) ∧
    (_safe_template "Hi ${name}" [("name", "A")] = "Hi A") ∧
    (_safe_template "Hi ${missing}" [] = "Hi ${missing}") ∧
    (_safe_template "Hi ${missing}" [("name", "A")] = "Hi ${missing}") ∧
    (∀ (pre name post : String) (vars : List (String × String)) (v : String),
      (∀ c ∈ pre.data, c ≠ '$') →
      name.data ≠ [] →
      (∀ c ∈ name.data, isIdentChar c = true) →
      isIdentStart (name.data.headD 'x') = true →
      vars ≠ [] →
      lookupVar vars name = some v →
      _safe_template (pre ++ "$\x7b" ++ name ++ "\x7d" ++ post) vars =
        pre ++ v ++ _safe_template post vars) ∧
    (∀ (pre name post : String) (vars : List (String × String)),
      (∀ c ∈ pre.data, c ≠ '$') →
      name.data ≠ [] →
      (∀ c ∈ name.data, isIdentChar c = true) →
      isIdentStart (name.data.headD 'x') = true →
      vars ≠ [] →
      lookupVar vars name = none →
      _safe_template (pre ++ "$\x7b" ++ name ++ "\x7d" ++ post) vars =
        pre ++ "$\x7b" ++ name ++ "\x7d" ++ _safe_template post vars) := by
  refine ⟨fun t => rfl, ?_, rfl, ?_, ?_, ?_⟩
  · simp [_safe_template, subst, isIdentStart, isIdentChar, lookupVar, String.mk]
  · simp [_safe_template, subst, isIdentStart, isIdentChar, lookupVar, String.mk]
  · intro pre name post vars v hpre hne hall hstart0 hvars hlook
    have hve : vars.isEmpty = false := by
      cases vars with
      | nil => exact absurd rfl hvars
      | cons a l => rfl
    have hstart : ∀ c, name.data.head? = some c → isIdentStart c = true := by
      intro c hc
      cases hd : name.data with
      | nil => rw [hd] at hc; simp at hc
      | cons a b =>
        rw [hd] at hc
        simp at hc
        rw [hd] at hstart0
        simp at hstart0
        rw [← hc]
        exact hstart0
    have key := subst_braced vars name post.data hne hall hstart
    rw [hlook] at key
    unfold _safe_template
    rw [if_neg (by simp [hve]), if_neg (by simp [hve])]
    have hdc : (pre ++ "$\x7b" ++ name ++ "\x7d" ++ post).data =
        pre.data ++ ('$' :: '{' :: (name.data ++ '}' :: post.data)) := by
      simp [String.data_append]
    rw [hdc, subst_no_dollar vars _ _ hpre, key]
    show String.mk (pre.data ++ (v.data ++ subst vars post.data)) =
      String.mk ((pre.data ++ v.data) ++ subst vars post.data)
    rw [List.append_assoc]
  · intro pre name post vars hpre hne hall hstart0 hvars hlook
    have hve : vars.isEmpty = false := by
      cases vars with
      | nil => exact absurd rfl hvars
      | cons a l => rfl
    have hstart : ∀ c, name.data.head? = some c → isIdentStart c = true := by
      intro c hc
      cases hd : name.data with
      | nil => rw [hd] at hc; simp at hc
      | cons a b =>
        rw [hd] at hc
        simp at hc
        rw [hd] at hstart0
        simp at hstart0
        rw [← hc]
        exact hstart0
    have key := subst_braced vars name post.data hne hall hstart
    rw [hlook] at key
    unfold _safe_template
    rw [if_neg (by simp [hve]), if_neg (by simp [hve])]
    have hdc : (pre ++ "$\x7b" ++ name ++ "\x7d" ++ post).data =
        pre.data ++ ('$' :: '{' :: (name.data ++ '}' :: post.data)) := by
      simp [String.data_append]
    rw [hdc, subst_no_dollar vars _ _ hpre, key]
    show String.mk (pre.data ++ ('$' :: '{' :: (name.data ++ '}' ::
        subst vars post.data))) =
      String.mk ((((pre.data ++ ['$', '{']) ++ name.data) ++ ['}']) ++
        subst vars post.data)
    simp [List.append_assoc]

/-- Witness for C9: a present placeholder at a concrete input. -/
theorem c9_safe_template_tolerant_substitution_witness :
    _safe_template ("Hi " ++ "$\x7b" ++ "user" ++ "\x7d" ++ "!") [("user", "Bob")] =
      "Hi " ++ "Bob" ++ _safe_template "!" [("user", "Bob")] :=
  c9_safe_template_tolerant_substitution.2.2.2.2.1 "Hi " "user" "!"
    [("user", "Bob")] "Bob" (by decide) (by decide) (by decide) (by decide)
    (by decide) rfl

/-- One character of `_NAME_PATTERN = r"^[A-Za-z0-9_-]+$"`. -/
def isSlugChar (c : Char) : Bool :=
  decide (('A' ≤ c ∧ c ≤ 'Z') ∨ ('a' ≤ c ∧ c ≤ 'z') ∨ ('0' ≤ c ∧ c ≤ '9') ∨
    c = '_' ∨ c = '-')

/-- `_NAME_PATTERN.fullmatch(name)` is a match: nonempty and all characters
in the class. -/
def slugOk (name : String) : Bool :=
  decide (name.data ≠ []) && name.data.all isSlugChar

/-- The error text of `_validate_slug`. -/
def slugMsg (kind : String) : String :=
  kind ++ " name must contain only letters, numbers, hyphens, or underscores."

/-- `server._validate_slug(name, kind)`: the name unchanged, or a
`ValueError` when the pattern does not match. -/
def _validate_slug (name kind : String) : Except String String :=
  if slugOk name then Except.ok name else Except.error (slugMsg kind)

/-- A filesystem path as its components. -/
abbrev FsPath := List String

/-- Split a path string on `/` (how `pathlib` decomposes a joined name). -/
def splitSlashAux : List Char → List Char → List (List Char)
  | [], acc => [acc.reverse]
  | '/' :: rest, acc => acc.reverse :: splitSlashAux rest []
  | c :: rest, acc => splitSlashAux rest (c :: acc)

/-- Components of a path string. -/
def splitOnSlash (s : String) : List String :=
  (splitSlashAux s.data []).map String.mk

/-- `dir / name` in `pathlib`: an absolute right side replaces the base,
otherwise the name's components are appended. -/
def pathJoin (dir : FsPath) (name : String) : FsPath :=
  if name.data.head? = some '/' then splitOnSlash name
  else dir ++ splitOnSlash name

/-- A text filesystem for the template/signature stores: path ↦ content. -/
abbrev Fsys := List (FsPath × String)

/-- Read a stored text file. -/
def fsysGet : Fsys → FsPath → Option String
  | [], _ => none
  | (p, c) :: rest, path => if p = path then some c else fsysGet rest path

/-- `path.write_text`: replace or create. -/
def fsysWrite : Fsys → FsPath → String → Fsys
  | [], path, content => [(path, content)]
  | (p, c) :: rest, path, content =>
    if p = path then (path, content) :: rest
    else (p, c) :: fsysWrite rest path content

/-- Render a path for an error message. -/
def pathStr : FsPath → String
  | [] => ""
  | [c] => c
  | c :: rest => c ++ "/" ++ pathStr rest

/-- `server._write_content(path, content, overwrite)`: refuse to replace an
existing file unless `overwrite`; otherwise write and return the path. -/
def _write_content (fsys : Fsys) (path : FsPath) (content : String)
    (overwrite : Bool) : Except String (Fsys × FsPath) :=
  if (fsysGet fsys path).isSome ∧ ¬ overwrite then
    Except.error ("File " ++ pathStr path ++
      " already exists. Set overwrite=True to replace it.")
  else Except.ok (fsysWrite fsys path content, path)

/-- `server.TEMPLATE_DIR`, relative to the server file. -/
def TEMPLATE_DIR : FsPath := ["templates"]

/-- `server.SIGNATURE_DIR`. -/
def SIGNATURE_DIR : FsPath := ["signatures"]

/-- `server.DEFAULT_TEMPLATE_TEXT`. -/
def DEFAULT_TEMPLATE_TEXT : String :=
  "Hi ${recipient_name},\n\n${intro}\n\nRegards,\n${sender_name}\n"

/-- `server.DEFAULT_TEMPLATE_HTML`. -/
def DEFAULT_TEMPLATE_HTML : String :=
  "<html>\n  <body style=\"font-family: Arial, sans-serif; color: #1f2933;\">\n    <p>Hi ${recipient_name},</p>\n    <p>${intro}</p>\n    <p>Regards,<br />${sender_name}</p>\n  </body>\n</html>\n"

/-- `server.DEFAULT_SIGNATURE_TEXT`. -/
def DEFAULT_SIGNATURE_TEXT : String := "${name}\n${role} · ${company}\n${email}\n"

/-- `server.DEFAULT_SIGNATURE_HTML`. -/
def DEFAULT_SIGNATURE_HTML : String :=
  "<p style=\"font-family: Arial, sans-serif; font-size: 13px; color: #1f2933;\">\n      <strong>${name}</strong><br/>${role} · ${company}<br/>${email}\n    </p>\n"

/-- `server.gmail_create_template`: validate the slug, fall back to the
default bodies when both are omitted, then write the `.txt` and `.html`
files in that order.  Returns the tool result (or the raised error), the
final filesystem, and the list of paths written. -/
def gmail_create_template (fsys : Fsys) (name : String)
    (text_body html_body : Option String) (overwrite : Bool) :
    Except String (List (String × String)) × Fsys × List FsPath :=
  match _validate_slug name "Template" with
  | Except.error e => (Except.error e, fsys, [])
  | Except.ok slug =>
    let bodies := if text_body.isNone ∧ html_body.isNone then
        (some DEFAULT_TEMPLATE_TEXT, some DEFAULT_TEMPLATE_HTML)
      else (text_body, html_body)
    match bodies.1 with
    | some content =>
      let p := pathJoin TEMPLATE_DIR (slug ++ ".txt")
      match _write_content fsys p content overwrite with
      | Except.error e => (Except.error e, fsys, [])
      | Except.ok (fsys1, _) =>
        match bodies.2 with
        | some ch =>
          let p2 := pathJoin TEMPLATE_DIR (slug ++ ".html")
          match _write_content fsys1 p2 ch overwrite with
          | Except.error e => (Except.error e, fsys1, [p])
          | Except.ok (fsys2, _) =>
            (Except.ok [("name", slug), ("text_path", pathStr p),
              ("html_path", pathStr p2)], fsys2, [p, p2])
        | none =>
          (Except.ok [("name", slug), ("text_path", pathStr p)], fsys1, [p])
    | none =>
      match bodies.2 with
      | some ch =>
        let p2 := pathJoin TEMPLATE_DIR (slug ++ ".html")
        match _write_content fsys p2 ch overwrite with
        | Except.error e => (Except.error e, fsys, [])
        | Except.ok (fsys2, _) =>
          (Except.ok [("name", slug), ("html_path", pathStr p2)], fsys2, [p2])
      | none => (Except.ok [("name", slug)], fsys, [])

/-- `server.gmail_create_signature`, identically shaped over the signature
store and defaults. -/
def gmail_create_signature (fsys : Fsys) (name : String)
    (text_body html_body : Option String) (overwrite : Bool) :
    Except String (List (String × String)) × Fsys × List FsPath :=
  match _validate_slug name "Signature" with
  | Except.error e => (Except.error e, fsys, [])
  | Except.ok slug =>
    let bodies := if text_body.isNone ∧ html_body.isNone then
        (some DEFAULT_SIGNATURE_TEXT, some DEFAULT_SIGNATURE_HTML)
      else (text_body, html_body)
    match bodies.1 with
    | some content =>
      let p := pathJoin SIGNATURE_DIR (slug ++ ".txt")
      match _write_content fsys p content overwrite with
      | Except.error e => (Except.error e, fsys, [])
      | Except.ok (fsys1, _) =>
        match bodies.2 with
        | some ch =>
          let p2 := pathJoin SIGNATURE_DIR (slug ++ ".html")
          match _write_content fsys1 p2 ch overwrite with
          | Except.error e => (Except.error e, fsys1, [p])
          | Except.ok (fsys2, _) =>
            (Except.ok [("name", slug), ("text_path", pathStr p),
              ("html_path", pathStr p2)], fsys2, [p, p2])
        | none =>
          (Except.ok [("name", slug), ("text_path", pathStr p)], fsys1, [p])
    | none =>
      match bodies.2 with
      | some ch =>
        let p2 := pathJoin SIGNATURE_DIR (slug ++ ".html")
        match _write_content fsys p2 ch overwrite with
        | Except.error e => (Except.error e, fsys, [])
        | Except.ok (fsys2, _) =>
          (Except.ok [("name", slug), ("html_path", pathStr p2)], fsys2, [p2])
      | none => (Except.ok [("name", slug)], fsys, [])

theorem splitSlashAux_no_slash (l acc : List Char) (h : ∀ c ∈ l, c ≠ '/') :
    splitSlashAux l acc = [acc.reverse ++ l] := by
  induction l generalizing acc with
  | nil => simp [splitSlashAux]
  | cons c cs ih =>
    have hc : c ≠ '/' := h c (by simp)
    have hstep : splitSlashAux (c :: cs) acc = splitSlashAux cs (c :: acc) := by
      simp [splitSlashAux, hc]
    rw [hstep, ih (c :: acc) (fun d hd => h d (by simp [hd]))]
    simp

theorem pathJoin_no_slash (dir : FsPath) (s : String)
    (h : ∀ c ∈ s.data, c ≠ '/') (hh : s.data.head? ≠ some '/') :
    pathJoin dir s = dir ++ [s] := by
  unfold pathJoin
  rw [if_neg hh]
  unfold splitOnSlash
  rw [splitSlashAux_no_slash s.data [] h]
  simp

theorem slugChar_ne_slash (c : Char) (h : isSlugChar c = true) : c ≠ '/' := by
  intro hc
  rw [hc] at h
  exact absurd h (by decide)

theorem slugOk_parts (name : String) (h : slugOk name = true) :
    name.data ≠ [] ∧ ∀ c ∈ name.data, isSlugChar c = true := by
  unfold slugOk at h
  rw [Bool.and_eq_true] at h
  refine ⟨by simpa using h.1, ?_⟩
  intro c hc
  exact List.all_eq_true.mp h.2 c hc

theorem pathJoin_slug_ext (dir : FsPath) (name ext : String)
    (hok : slugOk name = true) (hext : ∀ c ∈ ext.data, c ≠ '/') :
    pathJoin dir (name ++ ext) = dir ++ [name ++ ext] := by
  obtain ⟨hne, hall⟩ := slugOk_parts name hok
  apply pathJoin_no_slash
  · intro c hc
    rw [String.data_append] at hc
    rcases List.mem_append.mp hc with hc | hc
    · exact slugChar_ne_slash c (hall c hc)
    · exact hext c hc
  · rw [String.data_append]
    cases hd : name.data with
    | nil => exact absurd hd hne
    | cons a b =>
      simp only [List.cons_append, List.head?_cons]
      intro hc
      injection hc with hc
      exact absurd hc (slugChar_ne_slash a (hall a (by rw [hd]; simp)))

/-- C10.  Template/signature names are validated against
`^[A-Za-z0-9_-]+$`: an invalid name makes both create operations fail
before writing anything (the error text of `_validate_slug`, the
filesystem unchanged, no writes), and every path either operation ever
writes is a direct child of the respective store directory, named by the
slug plus `.txt` or `.html`. -/
theorem c10_slug_validation_confines_writes
    (fsys : Fsys) (name : String) (tb hb : Option String) (ow : Bool) :
    (slugOk name = false →
      gmail_create_template fsys name tb hb ow =
        (Except.error (slugMsg "Template"), fsys, []) ∧
      gmail_create_signature fsys name tb hb ow =
        (Except.error (slugMsg "Signature"), fsys, [])) ∧
    (∀ p ∈ (gmail_create_template fsys name tb hb ow).2.2,
      p = TEMPLATE_DIR ++ [name ++ ".txt"] ∨
      p = TEMPLATE_DIR ++ [name ++ ".html"]) ∧
    (∀ p ∈ (gmail_create_signature fsys name tb hb ow).2.2,
      p = SIGNATURE_DIR ++ [name ++ ".txt"] ∨
      p = SIGNATURE_DIR ++ [name ++ ".html"]) := by
  refine ⟨?_, ?_, ?_⟩
  · intro hbad
    constructor
    · unfold gmail_create_template _validate_slug
      rw [if_neg (by simp [hbad])]
    · unfold gmail_create_signature _validate_slug
      rw [if_neg (by simp [hbad])]
  · intro p hp
    by_cases hok : slugOk name = true
    · have ht := pathJoin_slug_ext TEMPLATE_DIR name ".txt" hok (by decide)
      have hh := pathJoin_slug_ext TEMPLATE_DIR name ".html" hok (by decide)
      unfold gmail_create_template _validate_slug at hp
      rw [if_pos hok] at hp
      simp only [] at hp
      split at hp
      all_goals (try (split at hp))
      all_goals (try (split at hp))
      all_goals (try (split at hp))
      all_goals (try (split at hp))
      all_goals simp_all
      all_goals tauto
    · unfold gmail_create_template _validate_slug at hp
      rw [if_neg hok] at hp
      simp at hp
  · intro p hp
    by_cases hok : slugOk name = true
    · have ht := pathJoin_slug_ext SIGNATURE_DIR name ".txt" hok (by decide)
      have hh := pathJoin_slug_ext SIGNATURE_DIR name ".html" hok (by decide)
      unfold gmail_create_signature _validate_slug at hp
      rw [if_pos hok] at hp
      simp only [] at hp
      split at hp
      all_goals (try (split at hp))
      all_goals (try (split at hp))
      all_goals (try (split at hp))
      all_goals (try (split at hp))
      all_goals simp_all
      all_goals tauto
    · unfold gmail_create_signature _validate_slug at hp
      rw [if_neg hok] at hp
      simp at hp

/-- Witness for C10: an invalid name (containing `/` and `..`) is
rejected with no writes, and a valid name's default-template creation
writes only direct children of the store. -/
theorem c10_slug_validation_confines_writes_witness :
    (gmail_create_template [] "../evil" none none false =
        (Except.error (slugMsg "Template"), [], []) ∧
      gmail_create_signature [] "../evil" none none false =
        (Except.error (slugMsg "Signature"), [], [])) ∧
    (TEMPLATE_DIR ++ ["greeting" ++ ".txt"] =
        TEMPLATE_DIR ++ ["greeting" ++ ".txt"] ∨
      TEMPLATE_DIR ++ ["greeting" ++ ".txt"] =
        TEMPLATE_DIR ++ ["greeting" ++ ".html"]) :=
  ⟨(c10_slug_validation_confines_writes [] "../evil" none none false).1
      (by decide),
    (c10_slug_validation_confines_writes [] "greeting" none none false).2.1
      (TEMPLATE_DIR ++ ["greeting" ++ ".txt"]) (by decide)⟩

/-- A Python `datetime`: wall-clock reading in microseconds together with
its UTC offset in microseconds (`none` = naive).  The absolute instant of
an aware value is `wall - offset`. -/
structure PyDateTime where
  wall : Int
  off : Option Int

/-- `server._apply_timezone(dt, tz_name)`: attach the event's zone (given
here by its resolved offset `tzOff`, 0 for the UTC default) to a naive
value; an aware value is unchanged.  Returns the absolute instant in
microseconds. -/
def _apply_timezone (tzOff : Int) (dt : PyDateTime) : Int :=
  match dt.off with
  | some o => dt.wall - o
  | none => dt.wall - tzOff

/-- `server.CalendarAttendee`. -/
structure CalendarAttendee where
  email : String
  name : Option String := none

/-- `server.CalendarEventInput`.  The source field `end` is `ev_end` here
(`end` is reserved in Lean); `timezone` is the resolved offset of the
named zone in microseconds (`ZoneInfo(tz_name)`), `none` when absent. -/
structure CalendarEventInput where
  summary : String
  start : PyDateTime
  ev_end : PyDateTime
  description : Option String := none
  location : Option String := none
  organizer_email : Option String := none
  attendees : List CalendarAttendee := []
  timezone : Option Int := none
  reminder_minutes : Option Int := some 15
  uid : Option String := none

/-- Civil date from days since 1970-01-01 (the Gregorian conversion
underlying `strftime` on a UTC datetime). -/
def civilFromDays (z : Int) : Int × Int × Int :=
  let z' := z + 719468
  let era := z'.fdiv 146097
  let doe := z' - era * 146097
  let yoe := (doe - doe / 1460 + doe / 36524 - doe / 146096) / 365
  let y := yoe + era * 400
  let doy := doe - (365 * yoe + yoe / 4 - yoe / 100)
  let mp := (5 * doy + 2) / 153
  let d := doy - (153 * mp + 2) / 5 + 1
  let m := mp + (if mp < 10 then 3 else -9)
  (y + (if m ≤ 2 then 1 else 0), m, d)

/-- Zero-padded two-digit field. -/
def pad2 (n : Int) : String :=
  let s := Nat.repr n.toNat
  if s.length < 2 then "0" ++ s else s

/-- Zero-padded four-digit year. -/
def pad4 (n : Int) : String :=
  let s := Nat.repr n.toNat
  String.mk (List.replicate (4 - s.length) '0') ++ s

/-- `server._format_ics_datetime`: render the absolute instant (micro-
seconds) as `YYYYMMDDTHHMMSSZ` in UTC — truncating sub-second precision. -/
def formatIcsDT (absMicro : Int) : String :=
  let secs := absMicro.fdiv 1000000
  let days := secs.fdiv 86400
  let sod := secs - days * 86400
  let ymd := civilFromDays days
  pad4 ymd.1 ++ pad2 ymd.2.1 ++ pad2 ymd.2.2 ++ "T" ++
    pad2 (sod / 3600) ++ pad2 ((sod % 3600) / 60) ++ pad2 (sod % 60) ++ "Z"

/-- `";".join` / `"\r\n".join`. -/
def joinSep (sep : String) : List String → String
  | [] => ""
  | [x] => x
  | x :: rest => x ++ sep ++ joinSep sep rest

/-- Does the line start with the given prefix (splitting is on the
emitted line list, so this is the line-level test)? -/
def lineStarts (pfx l : String) : Bool := List.isPrefixOf pfx.data l.data

/-- One emitted `ATTENDEE` line: optional `CN=`, the fixed role /
participation / RSVP parameters, and the mailto target. -/
def attendeeLine (a : CalendarAttendee) (email : String) : String :=
  "ATTENDEE;" ++ (joinSep ";"
    ((match a.name with
      | some nm => if nm = "" then [] else ["CN=" ++ nm]
      | none => []) ++
      ["ROLE=REQ-PARTICIPANT", "PARTSTAT=NEEDS-ACTION", "RSVP=TRUE"]) ++
    (":mailto:" ++ email))

/-- The deduplication loop over attendees: skip empty (stripped) emails
and emails whose lower-case form was already seen. -/
def attendeeLinesGo (seen : List String) : List CalendarAttendee → List String
  | [] => []
  | a :: rest =>
    let email := pyStrip a.email
    if email = "" ∨ pyLower email ∈ seen then attendeeLinesGo seen rest
    else attendeeLine a email :: attendeeLinesGo (pyLower email :: seen) rest

/-- `event.attendees or [CalendarAttendee(email=email.strip()) for email
in recipients]`. -/
def attendeesEffective (ev : CalendarEventInput) (recipients : List String) :
    List CalendarAttendee :=
  if ev.attendees.isEmpty then
    recipients.map (fun e => { email := pyStrip e })
  else ev.attendees

/-- `uid = event.uid or f"{uuid.uuid4()}@gmail-smtp-mcp"`. -/
def resolveUid (u : Option String) (genUuid : String) : String :=
  match u with
  | some s => if s = "" then genUuid ++ "@gmail-smtp-mcp" else s
  | none => genUuid ++ "@gmail-smtp-mcp"

/-- `organizer = event.organizer_email or sender`. -/
def resolveOrganizer (o : Option String) (sender : String) : String :=
  match o with
  | some s => if s = "" then sender else s
  | none => sender

/-- `description.replace("\n", "\\n")`. -/
def escapeNewlines (s : String) : String :=
  String.mk (s.data.foldr
    (fun c acc => if c = '\n' then '\\' :: 'n' :: acc else c :: acc) [])

/-- The eleven header lines of the VEVENT, in source order. -/
def inviteFixedLines (uid summary organizer : String)
    (dtstamp start ev_end : Int) : List String :=
  ["BEGIN:VCALENDAR", "VERSION:2.0", "PRODID:-//gmail-smtp-mcp//EN",
   "METHOD:REQUEST", "BEGIN:VEVENT",
   "UID:" ++ uid,
   "SUMMARY:" ++ summary,
   "DTSTAMP:" ++ formatIcsDT dtstamp,
   "DTSTART:" ++ formatIcsDT start,
   "DTEND:" ++ formatIcsDT ev_end,
   "ORGANIZER;EMAIL=" ++ (organizer ++ (":mailto:" ++ organizer))]

/-- `if event.location: lines.append(...)`. -/
def inviteLocLines (location : Option String) : List String :=
  match location with
  | some l => if l = "" then [] else ["LOCATION:" ++ l]
  | none => []

/-- `if event.description: lines.append(...)` with newline escaping. -/
def inviteDescLines (description : Option String) : List String :=
  match description with
  | some d => if d = "" then [] else ["DESCRIPTION:" ++ escapeNewlines d]
  | none => []

/-- The VALARM block, emitted when the reminder offset is non-negative. -/
def inviteAlarmLines (reminder : Int) : List String :=
  if reminder ≥ 0 then
    ["BEGIN:VALARM", "TRIGGER:-PT" ++ (Nat.repr reminder.toNat ++ "M"),
     "ACTION:DISPLAY", "DESCRIPTION:Reminder", "END:VALARM"]
  else []

/-- `server._build_calendar_invite(event, sender, recipients)`: reject an
inverted range, then emit the VEVENT lines in source order.  Returns the
`{uid}.ics` filename and the emitted lines; the written payload is their
CRLF join (`icsText`).  `nowUtcMicro` is `datetime.now(utc)` and `genUuid`
is the generated `uuid4` string. -/
def _build_calendar_invite (event : CalendarEventInput) (sender : String)
    (recipients : List String) (nowUtcMicro : Int) (genUuid : String) :
    Except String (String × List String) :=
  let tzOff := event.timezone.getD 0
  let start := _apply_timezone tzOff event.start
  let e := _apply_timezone tzOff event.ev_end
  if e ≤ start then Except.error "Calendar event 'end' must be after 'start'."
  else
    let organizer := resolveOrganizer event.organizer_email sender
    let uid := resolveUid event.uid genUuid
    let attendee_lines := attendeeLinesGo [] (attendeesEffective event recipients)
    let reminder := event.reminder_minutes.getD 15
    Except.ok (uid ++ ".ics",
      inviteFixedLines uid event.summary organizer nowUtcMicro start e ++
      inviteLocLines event.location ++
      inviteDescLines event.description ++
      attendee_lines ++
      inviteAlarmLines reminder ++
      ["END:VEVENT", "END:VCALENDAR"])

/-- The bytes written for the invite: CRLF-joined lines plus a trailing
CRLF. -/
def icsText (lines : List String) : String := joinSep "\x0d\n" lines ++ "\x0d\n"

theorem isPrefixOf_append_false (as bs cs : List Char)
    (h : List.isPrefixOf (as.take bs.length) bs = false) :
    List.isPrefixOf as (bs ++ cs) = false := by
  induction as generalizing bs with
  | nil => simp [List.isPrefixOf] at h
  | cons a as ih =>
    cases bs with
    | nil => simp at h
    | cons b bs' =>
      simp only [List.length_cons, List.take_succ_cons, List.cons_append,
        List.isPrefixOf, Bool.and_eq_false_iff] at h ⊢
      rcases h with h | h
      · exact Or.inl h
      · exact Or.inr (ih bs' h)

theorem isPrefixOf_append_true (as bs cs : List Char)
    (h : List.isPrefixOf as bs = true) :
    List.isPrefixOf as (bs ++ cs) = true := by
  induction as generalizing bs with
  | nil => simp [List.isPrefixOf]
  | cons a as ih =>
    cases bs with
    | nil => simp [List.isPrefixOf] at h
    | cons b bs' =>
      simp only [List.cons_append, List.isPrefixOf, Bool.and_eq_true] at h ⊢
      exact ⟨h.1, ih bs' h.2⟩

theorem lineStarts_append_false (pfx base x : String)
    (h : List.isPrefixOf (pfx.data.take base.data.length) base.data = false) :
    lineStarts pfx (base ++ x) = false := by
  unfold lineStarts
  rw [String.data_append]
  exact isPrefixOf_append_false _ _ _ h

theorem lineStarts_append_true (pfx base x : String)
    (h : List.isPrefixOf pfx.data base.data = true) :
    lineStarts pfx (base ++ x) = true := by
  unfold lineStarts
  rw [String.data_append]
  exact isPrefixOf_append_true _ _ _ h

theorem attendeeLinesGo_shape (seen : List String) (l : List CalendarAttendee) :
    ∀ ln ∈ attendeeLinesGo seen l, ∃ t, ln = "ATTENDEE;" ++ t := by
  induction l generalizing seen with
  | nil => simp [attendeeLinesGo]
  | cons a rest ih =>
    intro ln hln
    simp only [attendeeLinesGo] at hln
    by_cases hc : (pyStrip a.email = "" ∨ pyLower (pyStrip a.email) ∈ seen)
    · rw [if_pos hc] at hln
      exact ih seen ln hln
    · rw [if_neg hc] at hln
      rcases List.mem_cons.mp hln with h | h
      · exact ⟨_, by rw [h]; rfl⟩
      · exact ih _ ln h

theorem countP_attendee_zero (pfx : String)
    (hp : List.isPrefixOf (pfx.data.take "ATTENDEE;".data.length)
      "ATTENDEE;".data = false) (seen : List String)
    (l : List CalendarAttendee) :
    (attendeeLinesGo seen l).countP (fun ln => lineStarts pfx ln) = 0 := by
  rw [List.countP_eq_zero]
  intro ln hln
  obtain ⟨t, ht⟩ := attendeeLinesGo_shape seen l ln hln
  rw [ht]
  simp [lineStarts_append_false pfx "ATTENDEE;" t hp]

theorem countP_attendee_full (seen : List String) (l : List CalendarAttendee) :
    (attendeeLinesGo seen l).countP (fun ln => lineStarts "ATTENDEE" ln) =
      (attendeeLinesGo seen l).length := by
  rw [List.countP_eq_length]
  intro ln hln
  obtain ⟨t, ht⟩ := attendeeLinesGo_shape seen l ln hln
  rw [ht]
  simp [lineStarts_append_true "ATTENDEE" "ATTENDEE;" t (by decide)]

theorem countP_loc_zero (pfx : String)
    (hp : List.isPrefixOf (pfx.data.take "LOCATION:".data.length)
      "LOCATION:".data = false) (o : Option String) :
    (inviteLocLines o).countP (fun ln => lineStarts pfx ln) = 0 := by
  cases o with
  | none => rfl
  | some l =>
    simp only [inviteLocLines]
    by_cases h : l = ""
    · rw [if_pos h]; rfl
    · rw [if_neg h]
      simp [List.countP_cons, lineStarts_append_false pfx "LOCATION:" l hp]

theorem countP_desc_zero (pfx : String)
    (hp : List.isPrefixOf (pfx.data.take "DESCRIPTION:".data.length)
      "DESCRIPTION:".data = false) (o : Option String) :
    (inviteDescLines o).countP (fun ln => lineStarts pfx ln) = 0 := by
  cases o with
  | none => rfl
  | some d =>
    simp only [inviteDescLines]
    by_cases h : d = ""
    · rw [if_pos h]; rfl
    · rw [if_neg h]
      simp [List.countP_cons,
        lineStarts_append_false pfx "DESCRIPTION:" (escapeNewlines d) hp]

theorem countP_alarm_zero (pfx : String)
    (h1 : lineStarts pfx "BEGIN:VALARM" = false)
    (h2 : lineStarts pfx "ACTION:DISPLAY" = false)
    (h3 : lineStarts pfx "DESCRIPTION:Reminder" = false)
    (h4 : lineStarts pfx "END:VALARM" = false)
    (hp : List.isPrefixOf (pfx.data.take "TRIGGER:-PT".data.length)
      "TRIGGER:-PT".data = false) (r : Int) :
    (inviteAlarmLines r).countP (fun ln => lineStarts pfx ln) = 0 := by
  unfold inviteAlarmLines
  by_cases h : r ≥ 0
  · rw [if_pos h]
    simp [List.countP_cons, h1, h2, h3, h4,
      lineStarts_append_false pfx "TRIGGER:-PT" (Nat.repr r.toNat ++ "M") hp]
  · rw [if_neg h]; rfl

theorem countP_DTSTART_fixed (uid summary organizer : String)
    (t1 t2 t3 : Int) :
    (inviteFixedLines uid summary organizer t1 t2 t3).countP
      (fun ln => lineStarts "DTSTART" ln) = 1 := by
  unfold inviteFixedLines
  simp [List.countP_cons,
    lineStarts_append_false "DTSTART" "UID:" uid (by decide),
    lineStarts_append_false "DTSTART" "SUMMARY:" summary (by decide),
    lineStarts_append_false "DTSTART" "DTSTAMP:" (formatIcsDT t1) (by decide),
    lineStarts_append_true "DTSTART" "DTSTART:" (formatIcsDT t2) (by decide),
    lineStarts_append_false "DTSTART" "DTEND:" (formatIcsDT t3) (by decide),
    lineStarts_append_false "DTSTART" "ORGANIZER;EMAIL="
      (organizer ++ (":mailto:" ++ organizer)) (by decide),
    show lineStarts "DTSTART" "BEGIN:VCALENDAR" = false from by decide,
    show lineStarts "DTSTART" "VERSION:2.0" = false from by decide,
    show lineStarts "DTSTART" "PRODID:-//gmail-smtp-mcp//EN" = false from by decide,
    show lineStarts "DTSTART" "METHOD:REQUEST" = false from by decide,
    show lineStarts "DTSTART" "BEGIN:VEVENT" = false from by decide]

theorem countP_DTEND_fixed (uid summary organizer : String)
    (t1 t2 t3 : Int) :
    (inviteFixedLines uid summary organizer t1 t2 t3).countP
      (fun ln => lineStarts "DTEND" ln) = 1 := by
  unfold inviteFixedLines
  simp [List.countP_cons,
    lineStarts_append_false "DTEND" "UID:" uid (by decide),
    lineStarts_append_false "DTEND" "SUMMARY:" summary (by decide),
    lineStarts_append_false "DTEND" "DTSTAMP:" (formatIcsDT t1) (by decide),
    lineStarts_append_false "DTEND" "DTSTART:" (formatIcsDT t2) (by decide),
    lineStarts_append_true "DTEND" "DTEND:" (formatIcsDT t3) (by decide),
    lineStarts_append_false "DTEND" "ORGANIZER;EMAIL="
      (organizer ++ (":mailto:" ++ organizer)) (by decide),
    show lineStarts "DTEND" "BEGIN:VCALENDAR" = false from by decide,
    show lineStarts "DTEND" "VERSION:2.0" = false from by decide,
    show lineStarts "DTEND" "PRODID:-//gmail-smtp-mcp//EN" = false from by decide,
    show lineStarts "DTEND" "METHOD:REQUEST" = false from by decide,
    show lineStarts "DTEND" "BEGIN:VEVENT" = false from by decide]

theorem countP_ATTENDEE_fixed (uid summary organizer : String)
    (t1 t2 t3 : Int) :
    (inviteFixedLines uid summary organizer t1 t2 t3).countP
      (fun ln => lineStarts "ATTENDEE" ln) = 0 := by
  unfold inviteFixedLines
  simp [List.countP_cons,
    lineStarts_append_false "ATTENDEE" "UID:" uid (by decide),
    lineStarts_append_false "ATTENDEE" "SUMMARY:" summary (by decide),
    lineStarts_append_false "ATTENDEE" "DTSTAMP:" (formatIcsDT t1) (by decide),
    lineStarts_append_false "ATTENDEE" "DTSTART:" (formatIcsDT t2) (by decide),
    lineStarts_append_false "ATTENDEE" "DTEND:" (formatIcsDT t3) (by decide),
    lineStarts_append_false "ATTENDEE" "ORGANIZER;EMAIL="
      (organizer ++ (":mailto:" ++ organizer)) (by decide),
    show lineStarts "ATTENDEE" "BEGIN:VCALENDAR" = false from by decide,
    show lineStarts "ATTENDEE" "VERSION:2.0" = false from by decide,
    show lineStarts "ATTENDEE" "PRODID:-//gmail-smtp-mcp//EN" = false from by decide,
    show lineStarts "ATTENDEE" "METHOD:REQUEST" = false from by decide,
    show lineStarts "ATTENDEE" "BEGIN:VEVENT" = false from by decide]

/-- The sub-second event: `end` is half a second after `start`. -/
def subsecondEvent : CalendarEventInput :=
  { summary := "Sync", start := ⟨0, none⟩, ev_end := ⟨500000, none⟩,
    uid := some "uid-1" }

/-- C4 counterexample.  For an event whose end is strictly after its start
by half a second, invite generation succeeds, but the DTSTART and DTEND
lines carry the *same* timestamp (the `%Y%m%dT%H%M%SZ` format truncates to
whole seconds), so the parsed-back DTEND does not strictly follow the
parsed-back DTSTART. -/
theorem c4_subsecond_counterexample :
    _apply_timezone (subsecondEvent.timezone.getD 0) subsecondEvent.start <
      _apply_timezone (subsecondEvent.timezone.getD 0) subsecondEvent.ev_end ∧
    _build_calendar_invite subsecondEvent "s@example.com" [] 0 "u" =
      Except.ok ("uid-1.ics",
        ["BEGIN:VCALENDAR", "VERSION:2.0", "PRODID:-//gmail-smtp-mcp//EN",
         "METHOD:REQUEST", "BEGIN:VEVENT", "UID:uid-1", "SUMMARY:Sync",
         "DTSTAMP:19700101T000000Z", "DTSTART:19700101T000000Z",
         "DTEND:19700101T000000Z",
         "ORGANIZER;EMAIL=s@example.com:mailto:s@example.com",
         "BEGIN:VALARM", "TRIGGER:-PT15M", "ACTION:DISPLAY",
         "DESCRIPTION:Reminder", "END:VALARM", "END:VEVENT", "END:VCALENDAR"]) ∧
    formatIcsDT (_apply_timezone 0 subsecondEvent.start) =
      formatIcsDT (_apply_timezone 0 subsecondEvent.ev_end) :=
  ⟨by decide, by rfl, by decide⟩

/-- C4 (amended).  Invite generation fails with the range `ValueError`
exactly when the timezone-applied end is at or before the start; for a
strictly later end it succeeds, the emitted lines contain exactly one
DTSTART and one DTEND line, those lines carry the formatted start and end
instants, the returned filename is the (resolved) UID followed by `.ics`,
and the whole-second value rendered into DTEND is at least the one
rendered into DTSTART — equal whenever end exceeds start by less than a
second (see the counterexample), so the parsed-back DTEND follows the
parsed-back DTSTART only non-strictly in general. -/
theorem c4_invite_range_check_and_lines (ev : CalendarEventInput)
    (sender : String) (recips : List String) (now : Int) (gu : String) :
    (_apply_timezone (ev.timezone.getD 0) ev.ev_end ≤
        _apply_timezone (ev.timezone.getD 0) ev.start →
      _build_calendar_invite ev sender recips now gu =
        Except.error "Calendar event 'end' must be after 'start'.") ∧
    (_apply_timezone (ev.timezone.getD 0) ev.start <
        _apply_timezone (ev.timezone.getD 0) ev.ev_end →
      ∃ lines, _build_calendar_invite ev sender recips now gu =
          Except.ok (resolveUid ev.uid gu ++ ".ics", lines) ∧
        lines.countP (fun l => lineStarts "DTSTART" l) = 1 ∧
        lines.countP (fun l => lineStarts "DTEND" l) = 1 ∧
        ("DTSTART:" ++ formatIcsDT
          (_apply_timezone (ev.timezone.getD 0) ev.start)) ∈ lines ∧
        ("DTEND:" ++ formatIcsDT
          (_apply_timezone (ev.timezone.getD 0) ev.ev_end)) ∈ lines ∧
        (_apply_timezone (ev.timezone.getD 0) ev.start).fdiv 1000000 ≤
          (_apply_timezone (ev.timezone.getD 0) ev.ev_end).fdiv 1000000) := by
  constructor
  · intro hle
    unfold _build_calendar_invite
    rw [if_pos hle]
  · intro hlt
    unfold _build_calendar_invite
    rw [if_neg (not_le.mpr hlt)]
    refine ⟨_, rfl, ?_, ?_, ?_, ?_, ?_⟩
    · simp only [List.countP_append]
      rw [countP_DTSTART_fixed, countP_loc_zero _ (by decide),
        countP_desc_zero _ (by decide), countP_attendee_zero _ (by decide),
        countP_alarm_zero _ (by decide) (by decide) (by decide) (by decide)
          (by decide)]
      decide
    · simp only [List.countP_append]
      rw [countP_DTEND_fixed, countP_loc_zero _ (by decide),
        countP_desc_zero _ (by decide), countP_attendee_zero _ (by decide),
        countP_alarm_zero _ (by decide) (by decide) (by decide) (by decide)
          (by decide)]
      decide
    · simp [inviteFixedLines]
    · simp [inviteFixedLines]
    · have := Int.fdiv_eq_ediv
      rw [Int.fdiv_eq_ediv _ (by omega), Int.fdiv_eq_ediv _ (by omega)]
      exact Int.ediv_le_ediv (by omega) (le_of_lt hlt)

/-- Witness for C4 at a concrete valid event (one hour long). -/
theorem c4_invite_range_check_and_lines_witness :
    ∃ lines, _build_calendar_invite
        { summary := "Sprint sync", start := ⟨1761415200000000, some 0⟩,
          ev_end := ⟨1761418800000000, some 0⟩, uid := some "w-uid" }
        "s@example.com" ["r@example.com"] 1761415200000000 "g" =
        Except.ok (resolveUid (some "w-uid") "g" ++ ".ics", lines) ∧
      lines.countP (fun l => lineStarts "DTSTART" l) = 1 ∧
      lines.countP (fun l => lineStarts "DTEND" l) = 1 ∧
      ("DTSTART:" ++ formatIcsDT (_apply_timezone 0 ⟨1761415200000000, some 0⟩))
        ∈ lines ∧
      ("DTEND:" ++ formatIcsDT (_apply_timezone 0 ⟨1761418800000000, some 0⟩))
        ∈ lines ∧
      (1761415200000000 : Int).fdiv 1000000 ≤
        (1761418800000000 : Int).fdiv 1000000 :=
  (c4_invite_range_check_and_lines
    { summary := "Sprint sync", start := ⟨1761415200000000, some 0⟩,
      ev_end := ⟨1761418800000000, some 0⟩, uid := some "w-uid" }
    "s@example.com" ["r@example.com"] 1761415200000000 "g").2 (by decide)

theorem dedup_length_filter_ne (Y : List String) (k : String) (h : k ∈ Y) :
    Y.dedup.length = (Y.filter (fun x => decide (x ≠ k))).dedup.length + 1 := by
  induction Y with
  | nil => simp at h
  | cons y ys ih =>
    by_cases hyk : y = k
    · subst hyk
      rw [List.filter_cons]
      rw [if_neg (by simp)]
      by_cases hmem : y ∈ ys
      · rw [List.dedup_cons_of_mem hmem]
        exact ih hmem
      · rw [List.dedup_cons_of_not_mem hmem]
        have hself : ys.filter (fun x => decide (x ≠ y)) = ys := by
          apply List.filter_eq_self.mpr
          intro x hx
          simp
          intro hxy
          exact hmem (hxy ▸ hx)
        rw [hself]
        simp
    · have hk : k ∈ ys := by
        rcases List.mem_cons.mp h with hh | hh
        · exact absurd hh.symm hyk
        · exact hh
      rw [List.filter_cons, if_pos (by simp [hyk])]
      by_cases hmem : y ∈ ys
      · rw [List.dedup_cons_of_mem hmem,
          List.dedup_cons_of_mem (by
            apply List.mem_filter.mpr
            exact ⟨hmem, by simp [hyk]⟩)]
        exact ih hk
      · rw [List.dedup_cons_of_not_mem hmem,
          List.dedup_cons_of_not_mem (by
            intro hcon
            exact hmem (List.mem_filter.mp hcon).1)]
        simp only [List.length_cons]
        rw [ih hk]

theorem attendeeLinesGo_length (l : List CalendarAttendee) :
    ∀ seen : List String,
    (attendeeLinesGo seen l).length =
      ((((l.map (fun a => pyStrip a.email)).filter (fun s => decide (s ≠ ""))
        ).map pyLower).filter (fun k => decide (k ∉ seen))).dedup.length := by
  induction l with
  | nil => intro seen; simp [attendeeLinesGo]
  | cons a rest ih =>
    intro seen
    simp only [attendeeLinesGo, List.map_cons, List.filter_cons]
    by_cases hem : pyStrip a.email = ""
    · rw [if_pos (Or.inl hem)]
      rw [if_neg (by simp [hem])]
      exact ih seen
    · by_cases hk : pyLower (pyStrip a.email) ∈ seen
      · rw [if_pos (Or.inr hk)]
        rw [if_pos (show decide (pyStrip a.email ≠ "") = true by simp [hem])]
        simp only [List.map_cons, List.filter_cons]
        rw [if_neg (show ¬ decide (pyLower (pyStrip a.email) ∉ seen) = true
          by simp [hk])]
        exact ih seen
      · rw [if_neg (by
          intro hcon
          rcases hcon with hcon | hcon
          · exact hem hcon
          · exact hk hcon)]
        rw [if_pos (show decide (pyStrip a.email ≠ "") = true by simp [hem])]
        simp only [List.map_cons, List.filter_cons]
        rw [if_pos (show decide (pyLower (pyStrip a.email) ∉ seen) = true
          by simp [hk])]
        simp only [List.length_cons]
        rw [ih (pyLower (pyStrip a.email) :: seen)]
        have hfilter : (((rest.map (fun a => pyStrip a.email)).filter
              (fun s => decide (s ≠ ""))).map pyLower).filter
              (fun k => decide (k ∉ pyLower (pyStrip a.email) :: seen)) =
            ((((rest.map (fun a => pyStrip a.email)).filter
              (fun s => decide (s ≠ ""))).map pyLower).filter
              (fun k => decide (k ∉ seen))).filter
              (fun x => decide (x ≠ pyLower (pyStrip a.email))) := by
          rw [List.filter_filter]
          apply List.filter_congr
          intro x _
          simp only [List.mem_cons, decide_not]
          rcases Decidable.em (x = pyLower (pyStrip a.email)) with hx | hx
          · simp [hx]
          · simp [hx]
        rw [hfilter]
        set Y := (((rest.map (fun a => pyStrip a.email)).filter
          (fun s => decide (s ≠ ""))).map pyLower).filter
          (fun k => decide (k ∉ seen))
        by_cases hmem : pyLower (pyStrip a.email) ∈ Y
        · rw [List.dedup_cons_of_mem hmem]
          rw [dedup_length_filter_ne Y _ hmem]
        · rw [List.dedup_cons_of_not_mem hmem]
          have hself : Y.filter (fun x => decide (x ≠ pyLower (pyStrip a.email))) = Y := by
            apply List.filter_eq_self.mpr
            intro x hx
            simp
            intro hxy
            exact hmem (hxy ▸ hx)
          rw [hself]
          simp

/-- The claim's two-attendee event: same address in different letter case. -/
def attendeePairEvent : CalendarEventInput :=
  { summary := "S", start := ⟨0, none⟩, ev_end := ⟨3600000000, none⟩,
    attendees := [{ email := "a@x.com" }, { email := "A@X.com" }],
    uid := some "u1" }

/-- C5.  Attendee emails are deduplicated case-insensitively: in every
generated invite the number of ATTENDEE lines equals the number of
distinct lower-cased non-empty (stripped) attendee emails of the
effective attendee list; in particular the invite for attendees
`a@x.com` and `A@X.com` carries exactly one ATTENDEE line. -/
theorem c5_attendee_case_insensitive_dedup (ev : CalendarEventInput)
    (sender : String) (recips : List String) (now : Int) (gu : String) :
    (∀ fn lines, _build_calendar_invite ev sender recips now gu =
        Except.ok (fn, lines) →
      lines.countP (fun l => lineStarts "ATTENDEE" l) =
        ((((attendeesEffective ev recips).map (fun a => pyStrip a.email)
          ).filter (fun s => decide (s ≠ ""))).map pyLower).dedup.length) ∧
    (∀ fn lines, _build_calendar_invite attendeePairEvent "s@x.com" [] 0 "u" =
        Except.ok (fn, lines) →
      lines.countP (fun l => lineStarts "ATTENDEE" l) = 1) := by
  have main : ∀ (ev : CalendarEventInput) (sender : String)
      (recips : List String) (now : Int) (gu : String) (fn : String)
      (lines : List String),
      _build_calendar_invite ev sender recips now gu = Except.ok (fn, lines) →
      lines.countP (fun l => lineStarts "ATTENDEE" l) =
        ((((attendeesEffective ev recips).map (fun a => pyStrip a.email)
          ).filter (fun s => decide (s ≠ ""))).map pyLower).dedup.length := by
    intro ev sender recips now gu fn lines hok
    unfold _build_calendar_invite at hok
    by_cases hc : _apply_timezone (ev.timezone.getD 0) ev.ev_end ≤
        _apply_timezone (ev.timezone.getD 0) ev.start
    · rw [if_pos hc] at hok
      cases hok
    · rw [if_neg hc] at hok
      injection hok with hpair
      injection hpair with hfn hlines
      rw [← hlines]
      simp only [List.countP_append]
      rw [countP_ATTENDEE_fixed, countP_loc_zero _ (by decide),
        countP_desc_zero _ (by decide), countP_attendee_full,
        countP_alarm_zero _ (by decide) (by decide) (by decide) (by decide)
          (by decide)]
      have hend : (["END:VEVENT", "END:VCALENDAR"] : List String).countP
          (fun l => lineStarts "ATTENDEE" l) = 0 := by decide
      rw [hend]
      rw [attendeeLinesGo_length _ []]
      have hall : ((((attendeesEffective ev recips).map
            (fun a => pyStrip a.email)).filter (fun s => decide (s ≠ ""))
          ).map pyLower).filter (fun k => decide (k ∉ ([] : List String))) =
          (((attendeesEffective ev recips).map (fun a => pyStrip a.email)
            ).filter (fun s => decide (s ≠ ""))).map pyLower := by
        apply List.filter_eq_self.mpr
        intro x _
        simp
      rw [hall]
      omega
  refine ⟨main ev sender recips now gu, ?_⟩
  intro fn lines hok
  rw [main attendeePairEvent "s@x.com" [] 0 "u" fn lines hok]
  decide

/-- Witness for C5 at the two-attendee event of the claim. -/
theorem c5_attendee_case_insensitive_dedup_witness :
    ∃ fn lines, _build_calendar_invite attendeePairEvent "s@x.com" [] 0 "u" =
        Except.ok (fn, lines) ∧
      lines.countP (fun l => lineStarts "ATTENDEE" l) = 1 := by
  refine ⟨_, _, rfl, ?_⟩
  exact (c5_attendee_case_insensitive_dedup attendeePairEvent "s@x.com" [] 0
    "u").2 _ _ rfl

/-- `server.InlineImageSpec`. -/
structure InlineImageSpec where
  path : String
  cid : Option String := none

/-- `server.InlineImageResult`. -/
structure InlineImageResult where
  cid : String
  filename : String

/-- Externally visible steps of the send pipeline: reading the env/config
file, touching a file (template, signature, attachment, inline image), or
opening the SMTP session. -/
inductive Eff where
  | envRead : Eff
  | fileRead : String → Eff
  | netSend : Eff

/-- The template/signature stores and the attachment filesystem, as
read-only maps (name or path ↦ content when the file exists). -/
structure FileStore where
  template_txt : String → Option String
  template_html : String → Option String
  signature_txt : String → Option String
  signature_html : String → Option String
  file_contents : String → Option String

/-- Truthiness of a Python string. -/
def strTruthy (s : String) : Bool := !s.data.isEmpty

/-- Truthiness of an optional string (`None` and `""` are falsy). -/
def optTruthy (o : Option String) : Bool :=
  match o with
  | some s => strTruthy s
  | none => false

/-- `server._render_template_pair`: render whichever of `{name}.txt` /
`{name}.html` exists through `_safe_template`; `FileNotFoundError` when
neither does.  Also returns the file reads performed. -/
def _render_template_pair (fs : FileStore) (template_name : String)
    (vars : List (String × String)) :
    Except String (Option String × Option String) × List Eff :=
  let t := fs.template_txt template_name
  let h := fs.template_html template_name
  let effs :=
    (match t with
     | some _ => [Eff.fileRead ("templates/" ++ template_name ++ ".txt")]
     | none => []) ++
    (match h with
     | some _ => [Eff.fileRead ("templates/" ++ template_name ++ ".html")]
     | none => [])
  match t, h with
  | none, none =>
    (Except.error ("No template found for '" ++ template_name ++
      "'. Expected " ++ template_name ++ ".txt or " ++ template_name ++
      ".html."), effs)
  | _, _ =>
    (Except.ok (t.map (fun s => _safe_template s vars),
      h.map (fun s => _safe_template s vars)), effs)

/-- `server._render_signature_pair`, over the signature store. -/
def _render_signature_pair (fs : FileStore) (signature_name : String)
    (vars : List (String × String)) :
    Except String (Option String × Option String) × List Eff :=
  let t := fs.signature_txt signature_name
  let h := fs.signature_html signature_name
  let effs :=
    (match t with
     | some _ => [Eff.fileRead ("signatures/" ++ signature_name ++ ".txt")]
     | none => []) ++
    (match h with
     | some _ => [Eff.fileRead ("signatures/" ++ signature_name ++ ".html")]
     | none => [])
  match t, h with
  | none, none =>
    (Except.error ("No signature found for '" ++ signature_name ++
      "'. Expected " ++ signature_name ++ ".txt or " ++ signature_name ++
      ".html."), effs)
  | _, _ =>
    (Except.ok (t.map (fun s => _safe_template s vars),
      h.map (fun s => _safe_template s vars)), effs)

/-- `Path(p).name`: the last path component. -/
def basename (p : String) : String := (splitOnSlash p).getLastD p

/-- `server._attach_files`: resolve each attachment path, failing with
`FileNotFoundError` on a missing file, reading and attaching it (by its
basename) otherwise. -/
def _attach_files (fs : FileStore) : List String → Except String (List String) × List Eff
  | [] => (Except.ok [], [])
  | p :: rest =>
    match fs.file_contents p with
    | none => (Except.error ("Attachment not found: " ++ p), [])
    | some _ =>
      match _attach_files fs rest with
      | (Except.error e, effs) => (Except.error e, Eff.fileRead p :: effs)
      | (Except.ok names, effs) => (Except.ok (basename p :: names), Eff.fileRead p :: effs)

/-- The per-image loop of `_attach_inline_images`: existence check,
content-id resolution (caller-supplied truthy cid or the generated
message-id), embed by basename. -/
def attachInlineGo (fs : FileStore) (cidGen : Nat → String) :
    Nat → List InlineImageSpec → Except String (List InlineImageResult) × List Eff
  | _, [] => (Except.ok [], [])
  | i, spec :: rest =>
    match fs.file_contents spec.path with
    | none => (Except.error ("Inline image not found: " ++ spec.path), [])
    | some _ =>
      let cid := match spec.cid with
        | some c => if c = "" then cidGen i else c
        | none => cidGen i
      match attachInlineGo fs cidGen (i + 1) rest with
      | (Except.error e, effs) => (Except.error e, Eff.fileRead spec.path :: effs)
      | (Except.ok results, effs) =>
        (Except.ok ({ cid := cid, filename := basename spec.path } :: results),
          Eff.fileRead spec.path :: effs)

/-- `server._attach_inline_images`: nothing to do for an empty list;
otherwise an HTML part must exist. -/
def _attach_inline_images (fs : FileStore) (html_present : Bool)
    (inline_specs : List InlineImageSpec) (cidGen : Nat → String) :
    Except String (List InlineImageResult) × List Eff :=
  if inline_specs.isEmpty then (Except.ok [], [])
  else if ¬ html_present then
    (Except.error "Inline images require an HTML body or HTML template.", [])
  else attachInlineGo fs cidGen 0 inline_specs

/-- The composed message: headers in insertion order, the plain part, the
optional HTML part (with any merged HTML signature), the attached file
names, the inline (cid, filename) parts, and the optional calendar part. -/
structure EmailMsg where
  headers : List (String × String)
  plain : Option String := none
  html : Option String := none
  attachments : List String := []
  inline : List InlineImageResult := []
  calendar : Option (String × List String) := none

/-- `", ".join`. -/
def joinComma (l : List String) : String := joinSep ", " l

/-- `list(dict.fromkeys(l))`: first-occurrence deduplication. -/
def dedupKeepFirstGo (seen : List String) : List String → List String
  | [] => []
  | x :: rest =>
    if x ∈ seen then dedupKeepFirstGo seen rest
    else x :: dedupKeepFirstGo (x :: seen) rest

/-- `list(dict.fromkeys(l))`. -/
def dedupKeepFirst (l : List String) : List String := dedupKeepFirstGo [] l

/-- `server._build_message`: headers, body/template resolution, the
missing-plain-body check, signature merge, file attachments, inline
images, and the optional calendar invite — in source order, with the file
reads performed.  Returns the message, the attachment names (including a
generated invite filename), the inline results, the template, invite
filename and signature actually used. -/
def _build_message (fs : FileStore) (sender : String) (to_ : List String)
    (subject body : String) (attachments : Option (List String))
    (cc bcc : Option (List String)) (html_body : Option String)
    (body_template : Option String)
    (template_variables : Option (List (String × String)))
    (inline_images : Option (List InlineImageSpec))
    (calendar_event : Option CalendarEventInput)
    (signature_template : Option String)
    (signature_variables : Option (List (String × String)))
    (nowUtcMicro : Int) (genUuid : String) (cidGen : Nat → String) :
    Except String (EmailMsg × List String × List InlineImageResult ×
      Option String × Option String × Option String) × List Eff :=
  let attachments' := attachments.getD []
  let cc' := cc.getD []
  let bcc' := bcc.getD []
  let tv := template_variables.getD []
  let sv := match signature_variables with
    | some v => if v.isEmpty then tv else v
    | none => tv
  let headers := [("From", sender), ("To", joinComma to_)] ++
    (if cc'.isEmpty then [] else [("Cc", joinComma cc')]) ++
    (if bcc'.isEmpty then [] else [("Bcc", joinComma bcc')]) ++
    [("Subject", subject)]
  let tstep : Except String (Option String × String × Option String) × List Eff :=
    match body_template with
    | some bt =>
      if bt = "" then
        (Except.ok (none, _safe_template body tv,
          html_body.map (fun h => if strTruthy h then _safe_template h tv else h)), [])
      else
        match _render_template_pair fs bt tv with
        | (Except.error e, effs) => (Except.error e, effs)
        | (Except.ok (rt, rh), effs) =>
          (Except.ok (some bt,
            (if optTruthy rt then rt.getD "" else body),
            (if optTruthy rh then rh else html_body)), effs)
    | none =>
      (Except.ok (none, _safe_template body tv,
        html_body.map (fun h => if strTruthy h then _safe_template h tv else h)), [])
  match tstep with
  | (Except.error e, effs1) => (Except.error e, effs1)
  | (Except.ok (template_used, plain_body, html_content), effs1) =>
    if ¬ strTruthy plain_body then
      (Except.error "Provide a plain-text body or a template that renders plain text.",
        effs1)
    else
      let sstep : Except String (Option String × Option String × Option String) × List Eff :=
        match signature_template with
        | some st =>
          if st = "" then (Except.ok (none, none, none), [])
          else
            match _render_signature_pair fs st sv with
            | (Except.error e, effs) => (Except.error e, effs)
            | (Except.ok (stx, sh), effs) => (Except.ok (some st, stx, sh), effs)
        | none => (Except.ok (none, none, none), [])
      match sstep with
      | (Except.error e, effs2) => (Except.error e, effs1 ++ effs2)
      | (Except.ok (signature_used, signature_text, signature_html), effs2) =>
        let plain_body2 := if optTruthy signature_text then
            pyRstrip plain_body ++
              (if strTruthy (pyStrip plain_body) then "\n\n" else "") ++
              signature_text.getD ""
          else plain_body
        let html1 : Option String :=
          if optTruthy html_content then html_content else none
        let html2 : Option String :=
          if optTruthy signature_html then
            match html1 with
            | none => some (signature_html.getD "")
            | some h => some (pyRstrip h ++ "<br><br>" ++ signature_html.getD "")
          else html1
        match _attach_files fs attachments' with
        | (Except.error e, effs3) => (Except.error e, effs1 ++ effs2 ++ effs3)
        | (Except.ok attachment_names, effs3) =>
          match _attach_inline_images fs html2.isSome (inline_images.getD []) cidGen with
          | (Except.error e, effs4) =>
            (Except.error e, effs1 ++ effs2 ++ effs3 ++ effs4)
          | (Except.ok inline_results, effs4) =>
            match calendar_event with
            | some ev =>
              match _build_calendar_invite ev sender
                  (dedupKeepFirst (to_ ++ cc')) nowUtcMicro genUuid with
              | Except.error e =>
                (Except.error e, effs1 ++ effs2 ++ effs3 ++ effs4)
              | Except.ok (fname, clines) =>
                (Except.ok
                  ({ headers := headers, plain := some plain_body2,
                     html := html2, attachments := attachment_names,
                     inline := inline_results, calendar := some (fname, clines) },
                   attachment_names ++ [fname], inline_results, template_used,
                   some fname, signature_used),
                 effs1 ++ effs2 ++ effs3 ++ effs4)
            | none =>
              (Except.ok
                ({ headers := headers, plain := some plain_body2,
                   html := html2, attachments := attachment_names,
                   inline := inline_results, calendar := none },
                 attachment_names, inline_results, template_used,
                 none, signature_used),
               effs1 ++ effs2 ++ effs3 ++ effs4)

/-- The SMTP/env configuration `_collect_credentials` reads: values of
the environment variables, `none` or empty strings modelling unset/falsy
settings. -/
structure SmtpEnv where
  username : Option String
  app_password : Option String
  server : String := "smtp.gmail.com"
  port : Nat := 465
  from_address : Option String := none

/-- `server._collect_credentials`: load the env file (one env read), then
require a truthy username, password and from-address, defaulting the
latter to the username. -/
def _collect_credentials (env : SmtpEnv) :
    Except String (String × String × String × Nat × String) × List Eff :=
  if ¬ optTruthy env.username then
    (Except.error "Set GMAIL_SMTP_USERNAME in the environment or env file.",
      [Eff.envRead])
  else if ¬ optTruthy env.app_password then
    (Except.error "Set GMAIL_SMTP_APP_PASSWORD in the environment or env file.",
      [Eff.envRead])
  else
    let u := (env.username.getD "")
    let fa := match env.from_address with
      | some f => f
      | none => u
    if fa = "" then
      (Except.error "Set GMAIL_FROM_ADDRESS when username is unavailable.",
        [Eff.envRead])
    else
      (Except.ok (u, env.app_password.getD "", env.server, env.port, fa),
        [Eff.envRead])

/-- `server.EmailSendResult`. -/
structure EmailSendResult where
  accepted : List String
  refused : List (String × String)
  attachments : List String
  inline_images : List InlineImageResult
  template_used : Option String
  calendar_invite : Option String
  smtp_diagnostics : Option Json
  signature_used : Option String

/-- `server.gmail_send_email_with_attachments`: the empty-`to` validation
comes first, before the credential/env read, before composition (and its
file reads), before the network session.  `session` models the SMTP
server: for a message and recipient list it yields the refusal map and
the session diagnostics. -/
def gmail_send_email_with_attachments (env : SmtpEnv) (fs : FileStore)
    (session : EmailMsg → List String → List (String × String) × Json)
    (to_ : List String) (subject body : String)
    (attachments : Option (List String)) (cc bcc : Option (List String))
    (html_body : Option String) (body_template : Option String)
    (template_variables : Option (List (String × String)))
    (inline_images : Option (List InlineImageSpec))
    (calendar_event : Option CalendarEventInput)
    (signature_template : Option String)
    (signature_variables : Option (List (String × String)))
    (diagnostics : Bool) (nowUtcMicro : Int) (genUuid : String)
    (cidGen : Nat → String) : Except String EmailSendResult × List Eff :=
  if to_.isEmpty then
    (Except.error "At least one recipient is required in 'to'.", [])
  else
    match _collect_credentials env with
    | (Except.error e, effs0) => (Except.error e, effs0)
    | (Except.ok (_, _, _, _, sender), effs0) =>
      match _build_message fs sender to_ subject body attachments cc bcc
          html_body body_template template_variables inline_images
          calendar_event signature_template signature_variables
          nowUtcMicro genUuid cidGen with
      | (Except.error e, effs1) => (Except.error e, effs0 ++ effs1)
      | (Except.ok (message, attachment_names, inline_results, template_used,
          calendar_filename, signature_used), effs1) =>
        let recipient_list := dedupKeepFirst (to_ ++ cc.getD [] ++ bcc.getD [])
        let res := session message recipient_list
        let refused := res.1
        let accepted := recipient_list.filter
          (fun a => decide (lookupVar refused a = none))
        (Except.ok
          { accepted := accepted, refused := refused,
            attachments := attachment_names, inline_images := inline_results,
            template_used := template_used,
            calendar_invite := calendar_filename,
            smtp_diagnostics := if diagnostics then some res.2 else none,
            signature_used := signature_used },
         effs0 ++ effs1 ++ [Eff.netSend])

/-- An empty template/signature/file store. -/
def emptyStore : FileStore :=
  { template_txt := fun _ => none, template_html := fun _ => none,
    signature_txt := fun _ => none, signature_html := fun _ => none,
    file_contents := fun _ => none }

/-- C3 counterexample.  Composition (`_build_message`) performs no
recipient validation: with an empty `to` list and an otherwise valid
payload it succeeds (producing an empty `To` header) instead of failing
with a validation error. -/
theorem c3_composition_accepts_empty_to_counterexample :
    ∃ res effs,
      _build_message emptyStore "sender@example.com" [] "Subj" "B"
        none none none none none none none none none none 0 ""
        (fun _ => "") = (Except.ok res, effs) ∧
      res.1.headers =
        [("From", "sender@example.com"), ("To", ""), ("Subject", "Subj")] ∧
      res.1.plain = some "B" :=
  ⟨_, _, rfl, rfl, rfl⟩

/-- C3 (amended).  For every payload whose `to` list is empty, delivery
(`gmail_send_email_with_attachments`) fails with the recipient
`ValueError` before any effect at all — no env/config read, no file read,
no network session (the returned effect list is empty).  Composition
itself performs no recipient check: an otherwise-valid empty-`to`
payload composes successfully (see the counterexample; restated in the
second conjunct). -/
theorem c3_empty_to_rejected_before_any_effect :
    (∀ (env : SmtpEnv) (fs : FileStore)
      (session : EmailMsg → List String → List (String × String) × Json)
      (subject body : String) (attachments : Option (List String))
      (cc bcc : Option (List String)) (html_body : Option String)
      (body_template : Option String)
      (template_variables : Option (List (String × String)))
      (inline_images : Option (List InlineImageSpec))
      (calendar_event : Option CalendarEventInput)
      (signature_template : Option String)
      (signature_variables : Option (List (String × String)))
      (diagnostics : Bool) (nowUtcMicro : Int) (genUuid : String)
      (cidGen : Nat → String),
      gmail_send_email_with_attachments env fs session [] subject body
        attachments cc bcc html_body body_template template_variables
        inline_images calendar_event signature_template signature_variables
        diagnostics nowUtcMicro genUuid cidGen =
      (Except.error "At least one recipient is required in 'to'.", [])) ∧
    (∃ res effs,
      _build_message emptyStore "sender@example.com" [] "Subj" "B"
        none none none none none none none none none none 0 ""
        (fun _ => "") = (Except.ok res, effs)) :=
  ⟨fun _ _ _ _ _ _ _ _ _ _ _ _ _ _ _ _ _ _ _ => rfl, ⟨_, _, rfl⟩⟩
